import Mathlib

/-!
Verification of the vehicle-speed-detection system against its specification.

The development shallowly embeds the Python sources:
* `packages/metric_transformation/camera_calibration.py` and
  `packages/metric_transformation/transformer.py` (ground-plane pinhole
  projection) over `ℝ`, since the code is built from `tan`/`arctan`;
* `marius_test/RealSpeed2/depth_speed_tracker.py` (depth pipeline:
  motion compensation, clustering, track association, speed estimation);
* `packages/yolo_tracker/vehicle_speed_tracker.py` (pixel-ratio pipeline).

Python floats are modelled as exact numbers (`ℝ` where square roots or
trigonometry enter a computed value, `ℚ` where the code is pure rational
arithmetic and comparisons).  Comparisons of Euclidean norms against
constant thresholds are modelled by the equivalent comparisons of squared
norms against squared thresholds (`‖v‖ < c ↔ ‖v‖² < c²` for `c ≥ 0`),
which keeps those definitions computable and decidable.
-/

namespace SpeedDetection

/-! ## Ground-plane pinhole projection
`CameraCalibrationTransformer` from camera_calibration.py, together with the
`MetricTransformer` base class from transformer.py.

`__init__` stores `camera_height`, `deg2rad(tilt_angle)`, `deg2rad(pan_angle)`,
`focal_length`, image dimensions and sensor width, and derives
`fov_horizontal = 2·arctan(sensor_width/(2·focal_length))`,
`sensor_height = sensor_width · image_height/image_width`,
`fov_vertical = 2·arctan(sensor_height/(2·focal_length))`, finally setting
`_is_calibrated = True`.  Image dimensions are Python ints used only in real
arithmetic; they are modelled as reals. -/

/-- Errors raised by the transformer methods: the `RuntimeError` branches
("must be calibrated") and the `ValueError` for rays above the horizon. -/
inductive TErr where
  | notCalibrated : TErr
  | aboveHorizon : TErr
deriving DecidableEq

/-- The state of a constructed `CameraCalibrationTransformer` (fields written
by `__init__`, including the derived ones). -/
structure Calib where
  cameraHeight : ℝ
  tiltRad : ℝ
  panRad : ℝ
  focalLength : ℝ
  imageWidth : ℝ
  imageHeight : ℝ
  sensorWidth : ℝ
  fovHorizontal : ℝ
  sensorHeight : ℝ
  fovVertical : ℝ
  isCalibrated : Bool

/-- `np.deg2rad`. -/
noncomputable def deg2rad (x : ℝ) : ℝ := x * Real.pi / 180

/-- The field assignments of `CameraCalibrationTransformer.__init__` (after
the validation checks have passed). -/
noncomputable def mkCalib (cameraHeight tiltAngle focalLength imageWidth imageHeight
    sensorWidth panAngle : ℝ) : Calib :=
  { cameraHeight := cameraHeight
    tiltRad := deg2rad tiltAngle
    panRad := deg2rad panAngle
    focalLength := focalLength
    imageWidth := imageWidth
    imageHeight := imageHeight
    sensorWidth := sensorWidth
    fovHorizontal := 2 * Real.arctan (sensorWidth / (2 * focalLength))
    sensorHeight := sensorWidth * (imageHeight / imageWidth)
    fovVertical := 2 * Real.arctan (sensorWidth * (imageHeight / imageWidth) /
      (2 * focalLength))
    isCalibrated := true }

open Classical in
/-- `CameraCalibrationTransformer.__init__`: the four `ValueError` validations,
in source order.  `imageWidth = 0` is also a constructor failure: the source
then evaluates `image_height / image_width` on ints, which raises
`ZeroDivisionError`. -/
noncomputable def mkTransformer (cameraHeight tiltAngle focalLength imageWidth imageHeight
    sensorWidth panAngle : ℝ) : Except String Calib :=
  if cameraHeight ≤ 0 then .error "camera_height must be positive"
  else if ¬(-45 ≤ tiltAngle ∧ tiltAngle ≤ 90) then
    .error "tilt_angle must be between -45 and 90 degrees"
  else if focalLength ≤ 0 then .error "focal_length must be positive"
  else if sensorWidth ≤ 0 then .error "sensor_width must be positive"
  else if imageWidth = 0 then .error "ZeroDivisionError"
  else .ok (mkCalib cameraHeight tiltAngle focalLength imageWidth imageHeight
    sensorWidth panAngle)

/-- The elevation of the viewing ray through image row `py`:
`beta - tilt_angle` with `beta = -norm_y · fov_vertical/2` and
`norm_y = (py - image_height/2)/(image_height/2)` as in `transform_point`. -/
noncomputable def rayElevation (c : Calib) (py : ℝ) : ℝ :=
  -((py - c.imageHeight / 2) / (c.imageHeight / 2)) * (c.fovVertical / 2) - c.tiltRad

open Classical in
/-- `CameraCalibrationTransformer.transform_point`. -/
noncomputable def transform_point (c : Calib) (point : ℝ × ℝ) : Except TErr (ℝ × ℝ) :=
  if c.isCalibrated = false then .error .notCalibrated
  else
    let px := point.1
    let py := point.2
    let normX := (px - c.imageWidth / 2) / (c.imageWidth / 2)
    let alpha := normX * (c.fovHorizontal / 2)
    if 0 ≤ rayElevation c py then .error .aboveHorizon
    else
      let groundDistance := c.cameraHeight / Real.tan |rayElevation c py|
      .ok (groundDistance * Real.tan (alpha + c.panRad), groundDistance)

/-- The horizon row computed by `get_horizon_line` (the formula after the
calibration check):
`norm_y = -tilt_angle/(fov_vertical/2)` and
`horizon_y = norm_y · image_height/2 + image_height/2`. -/
noncomputable def horizonVal (c : Calib) : ℝ :=
  -c.tiltRad / (c.fovVertical / 2) * (c.imageHeight / 2) + c.imageHeight / 2

open Classical in
/-- `CameraCalibrationTransformer.get_horizon_line`. -/
noncomputable def get_horizon_line (c : Calib) : Except TErr ℝ :=
  if c.isCalibrated = false then .error .notCalibrated
  else .ok (horizonVal c)

/-- The list comprehension inside `MetricTransformer.transform_points`:
transform each point, propagating the first raised error. -/
noncomputable def transform_points_list (c : Calib) : List (ℝ × ℝ) → Except TErr (List (ℝ × ℝ))
  | [] => .ok []
  | p :: rest =>
    match transform_point c p with
    | .error e => .error e
    | .ok q =>
      match transform_points_list c rest with
      | .error e => .error e
      | .ok qs => .ok (q :: qs)

open Classical in
/-- `MetricTransformer.transform_points`. -/
noncomputable def transform_points (c : Calib) (ps : List (ℝ × ℝ)) :
    Except TErr (List (ℝ × ℝ)) :=
  if c.isCalibrated = false then .error .notCalibrated
  else transform_points_list c ps

open Classical in
/-- `MetricTransformer.calculate_distance`. -/
noncomputable def calculate_distance (c : Calib) (p1 p2 : ℝ × ℝ) : Except TErr ℝ :=
  if c.isCalibrated = false then .error .notCalibrated
  else
    match transform_point c p1 with
    | .error e => .error e
    | .ok q1 =>
      match transform_point c p2 with
      | .error e => .error e
      | .ok q2 => .ok (Real.sqrt ((q2.1 - q1.1) ^ 2 + (q2.2 - q1.2) ^ 2))

/-! ## Depth pipeline — `DepthSpeedTracker` (depth_speed_tracker.py)

The tracker's mutable state is a per-instance collection of per-track
histories (`track_history`), stored speed estimates (`speed_estimates`), the
active-track table (`active_tracks`) and the id counter (`next_track_id`).
Each method below is modelled on exactly the slice of state it reads and
writes. -/

/-- `history[0]`, the first entry of a trailing window. -/
def wfirst {α : Type*} [Inhabited α] (w : List α) : α := w.getD 0 default

/-- `history[-1]`, the last entry of a trailing window. -/
def wlast {α : Type*} [Inhabited α] (w : List α) : α := w.getD (w.length - 1) default

namespace DepthSpeedTracker

/-- A pixel position, exact-rational model of a float pair. -/
abbrev Pos := ℚ × ℚ

/-- Squared Euclidean distance between two positions.  The source compares
`np.linalg.norm(p - q)` against constant thresholds; every such comparison is
modelled by the order-equivalent comparison of `dist2` against the squared
threshold. -/
def dist2 (p q : Pos) : ℚ := (p.1 - q.1) ^ 2 + (p.2 - q.2) ^ 2

/-! ### `depth_to_distance` and `_calibrate_depth`

`min_object_distance = 10` and `max_object_distance = 80` are set in
`__init__` and never changed; they appear as the literals 10 and 80. -/

/-- The uncalibrated three-segment heuristic inside `depth_to_distance`
(`0.8 = 4/5`, `0.4 = 2/5`, exact rationals). -/
def heuristic_distance (d : ℚ) : ℚ :=
  if 4/5 < d then 10 + (1 - d) * 50
  else if 2/5 < d then 20 + (4/5 - d) * 75
  else 50 + (2/5 - d) * 75

/-- `DepthSpeedTracker.depth_to_distance`.  `calibrated`, `scale`, `offset`
are the instance attributes `self.calibrated`, `self.depth_scale_factor`,
`self.depth_offset`.  `np.clip(x, 10, 80)` is `min 80 (max 10 x)`. -/
def depth_to_distance (calibrated : Bool) (scale offset : ℚ) (d : ℚ) : ℚ :=
  let dist := if calibrated then scale * (1 - d) + offset else heuristic_distance d
  min 80 (max 10 dist)

/-! ### `calculate_speed` (depth pipeline)

History samples are `(x, y, depth, timestamp)` tuples.  Positions and
timestamps are real-valued (the speed formula takes a Euclidean norm);
depths stay rational (`depth_to_distance` is rational arithmetic). -/

/-- One `track_history` entry `(x, y, depth, timestamp)`. -/
structure Sample where
  x : ℝ
  y : ℝ
  depth : ℚ
  t : ℝ

instance : Inhabited Sample := ⟨⟨0, 0, 0, 0⟩⟩

/-- The speed-relevant state slice for one track: its history list and its
entry in `speed_estimates` (`none` when absent). -/
structure SpeedState where
  hist : List Sample
  est : Option ℝ

/-- `self.track_history[track_id] = self.track_history[track_id][-30:]`,
applied only when the length exceeds 30. -/
def truncate30 (l : List Sample) : List Sample :=
  if 30 < l.length then l.drop (l.length - 30) else l

/-- `history = self.track_history[track_id][-20:]`. -/
def calc_window (l : List Sample) : List Sample := l.drop (l.length - 20)

/-- The raw speed value computed by `calculate_speed` from the trailing
window `w` (before the plausibility filter and smoothing):
pixel displacement between the window's first and last samples, converted by
the pinhole model `real = pixel · distance / focal` and to km/h by `· 3.6`.
`focal = none` models `self.focal_length is None`, in which case the source
assigns the default 1600. -/
noncomputable def raw_speed (calibrated : Bool) (scale offset : ℚ) (focal : Option ℝ)
    (w : List Sample) : ℝ :=
  let firstE := wfirst w
  let lastE := wlast w
  let pixelDisp := Real.sqrt ((lastE.x - firstE.x) ^ 2 + (lastE.y - firstE.y) ^ 2)
  let timeDiff := lastE.t - firstE.t
  let estDistance := ((depth_to_distance calibrated scale offset
    ((firstE.depth + lastE.depth) / 2) : ℚ) : ℝ)
  (pixelDisp * estDistance / focal.getD 1600) / timeDiff * 3.6

/-- The history after appending the new sample and truncating to 30. -/
def post_hist (st : SpeedState) (x y : ℝ) (d : ℚ) (t : ℝ) : List Sample :=
  truncate30 (st.hist ++ [⟨x, y, d, t⟩])

open Classical in
/-- The "smooth with previous estimate" block of `calculate_speed`: a new
in-range speed differing from the stored estimate by more than 30 km/h is
averaged with it; otherwise it is used raw. -/
noncomputable def smooth (prevEst : Option ℝ) (speed : ℝ) : ℝ :=
  match prevEst with
  | some prev => if 30 < |speed - prev| then (speed + prev) / 2 else speed
  | none => speed

open Classical in
/-- `DepthSpeedTracker.calculate_speed`: appends the new sample, truncates
the history to 30, requires ≥ 15 samples, takes the trailing 20-sample
window, guards `time_diff <= 0`, computes the raw speed, applies the
`5 < speed < 120` plausibility filter and the > 30 km/h jump limiter,
and stores the emitted value in `speed_estimates`.  Returns the updated
state slice and the emitted speed (or `none`). -/
noncomputable def calculate_speed (calibrated : Bool) (scale offset : ℚ) (focal : Option ℝ)
    (st : SpeedState) (x y : ℝ) (d : ℚ) (t : ℝ) : SpeedState × Option ℝ :=
  let hist2 := post_hist st x y d t
  if hist2.length < 15 then (⟨hist2, st.est⟩, none)
  else
    let w := calc_window hist2
    if w.length < 2 then (⟨hist2, st.est⟩, none)
    else
      let firstE := wfirst w
      let lastE := wlast w
      if lastE.t - firstE.t ≤ 0 then (⟨hist2, st.est⟩, none)
      else
        let speed := raw_speed calibrated scale offset focal w
        if 5 < speed ∧ speed < 120 then
          (⟨hist2, some (smooth st.est speed)⟩, some (smooth st.est speed))
        else (⟨hist2, st.est⟩, none)

/-! ### `estimate_global_motion` (motion compensator)

The two cv2 calls are external: `goodFeaturesToTrack` yields
`staticFeatures` (`none` models a `None` return) and `calcOpticalFlowPyrLK`
yields, for each feature, its tracked position and status flag; the model
takes both as inputs and embeds the post-processing.  The `try/except`
wrapping is vacuous in this total model: every branch already returns a
value. -/

/-- `np.median` of a rational list: sort ascending, take the middle element
(odd length) or the mean of the two middle elements (even length).  The
source only reaches the median with ≥ 10 values; the `[]` case is
unreachable there. -/
def median (l : List ℚ) : ℚ :=
  let s := List.insertionSort (· ≤ ·) l
  if l.length % 2 = 1 then s.getD (l.length / 2) 0
  else (s.getD (l.length / 2 - 1) 0 + s.getD (l.length / 2) 0) / 2

/-- The valid tracked point pairs: `zip` of the detected features with the
optical-flow output, keeping those with status 1
(`good_prev = static_features[status == 1]`, `good_next = next_features[status == 1]`). -/
def valid_tracked (staticFeatures : Option (List Pos)) (flow : List (Pos × Bool)) :
    List (Pos × Pos) :=
  match staticFeatures with
  | none => []
  | some feats => ((feats.zip flow).filter fun pr => pr.2.2).map fun pr => (pr.1, pr.2.1)

/-- The per-point displacement vectors `good_next - good_prev`. -/
def motion_vectors (staticFeatures : Option (List Pos)) (flow : List (Pos × Bool)) :
    List Pos :=
  (valid_tracked staticFeatures flow).map fun pr => (pr.2.1 - pr.1.1, pr.2.2 - pr.1.2)

/-- `DepthSpeedTracker.estimate_global_motion` after the two cv2 calls:
`None` on a `None`/short feature set, `None` with fewer than 10 good
matches, otherwise the per-axis median displacement, returned only when its
magnitude exceeds 2 pixels (`‖m‖ > 2 ↔ ‖m‖² > 4`). -/
def estimate_global_motion (staticFeatures : Option (List Pos))
    (flow : List (Pos × Bool)) : Option Pos :=
  match staticFeatures with
  | none => none
  | some feats =>
    if feats.length < 10 then none
    else
      let good := valid_tracked (some feats) flow
      if good.length < 10 then none
      else
        let vs := motion_vectors (some feats) flow
        let m : Pos := (median (vs.map Prod.fst), median (vs.map Prod.snd))
        if 4 < m.1 ^ 2 + m.2 ^ 2 then some m else none

/-! ### `cluster_features_into_objects` (object clusterer)

A tracked feature carries `new_pos`, `displacement` and
`magnitude = ‖displacement‖`; the magnitude filter `magnitude > 2.0` is the
squared comparison `‖displacement‖² > 4`.  Depth sampling
(`depth_map[cy, cx]` at the clamped integer centroid) is abstracted as a
function from the centroid to a depth value.  The greedy loop iterates over
the filtered positions in order; the cluster of a seed is the set of ALL
filtered points within 80 px (`dist < 80 ↔ dist2 < 6400`) — the source does
not exclude already-used points from `cluster_mask`.  Members are marked
used before the bounding-box plausibility checks, so rejected clusters still
consume their points. -/

/-- One tracked feature (`new_pos` and `displacement`; `old_pos` is unused by
the clusterer). -/
structure Feature where
  pos : Pos
  disp : Pos

instance : Inhabited Feature := ⟨⟨(0, 0), (0, 0)⟩⟩

/-- Squared magnitude of a feature's displacement. -/
def mag2 (f : Feature) : ℚ := f.disp.1 ^ 2 + f.disp.2 ^ 2

/-- A cluster candidate produced by the clusterer (`center`, sampled depth,
average displacement, bounding box, feature count).  The stored
`avg_magnitude` is omitted: it is a mean of square roots, and no downstream
consumer in the source reads it. -/
structure ClusterObj where
  center : Pos
  depth : ℚ
  displacement : Pos
  bbox : ℚ × ℚ × ℚ × ℚ
  numFeatures : ℕ

/-- Minimum of a rational list (`np.min`; the source applies it to nonempty
clusters only). -/
def qmin : List ℚ → ℚ
  | [] => 0
  | x :: xs => xs.foldl min x

/-- Maximum of a rational list (`np.max`). -/
def qmax : List ℚ → ℚ
  | [] => 0
  | x :: xs => xs.foldl max x

/-- The cluster seeded at index `i`: all indices of `ps` whose position is
within 80 px of `ps[i]` (`distances < 80`, squared: `dist2 < 6400`). -/
def cluster_of (ps : List Pos) (i : ℕ) : List ℕ :=
  (List.range ps.length).filter fun j => dist2 (ps.getD j (0, 0)) (ps.getD i (0, 0)) < 6400

/-- The greedy clustering loop of `cluster_features_into_objects` over the
first `m` seed indices: returns the used-flags (as a function on indices) and
the accepted objects.  Skips used seeds; skips clusters of fewer than 5
points; marks all members of a big cluster used; then builds the candidate
and applies the width/height/area/aspect plausibility checks
(`aspect = width / (height + 1e-6)`). -/
def cluster_loop (feats : List Feature) (depthAt : Pos → ℚ) : ℕ → (ℕ → Bool) × List ClusterObj
  | 0 => (fun _ => false, [])
  | m + 1 =>
    let st := cluster_loop feats depthAt m
    let used := st.1
    let objs := st.2
    let ps := feats.map (·.pos)
    if used m then (used, objs)
    else
      let cl := cluster_of ps m
      if cl.length < 5 then (used, objs)
      else
        let used' := fun k => used k || decide (k ∈ cl)
        let cps := cl.map fun j => ps.getD j (0, 0)
        let center : Pos := ((cps.map Prod.fst).sum / cl.length, (cps.map Prod.snd).sum / cl.length)
        let depth := depthAt center
        let avgDisp : Pos :=
          ((cl.map fun j => (feats.getD j default).disp.1).sum / cl.length,
           (cl.map fun j => (feats.getD j default).disp.2).sum / cl.length)
        let xMin := qmin (cps.map Prod.fst)
        let xMax := qmax (cps.map Prod.fst)
        let yMin := qmin (cps.map Prod.snd)
        let yMax := qmax (cps.map Prod.snd)
        let bboxWidth := xMax - xMin
        let bboxHeight := yMax - yMin
        let bboxArea := bboxWidth * bboxHeight
        if bboxWidth < 40 ∨ 300 < bboxWidth then (used', objs)
        else if bboxHeight < 30 ∨ 200 < bboxHeight then (used', objs)
        else if bboxArea < 1200 ∨ 60000 < bboxArea then (used', objs)
        else
          let aspect := bboxWidth / (bboxHeight + 1/1000000)
          if aspect < 4/5 ∨ 4 < aspect then (used', objs)
          else (used', objs ++ [⟨center, depth, avgDisp, (xMin, yMin, xMax, yMax), cl.length⟩])

/-- The used-flags after the greedy loop has processed the first `m` seeds. -/
def used_after (feats : List Feature) (depthAt : Pos → ℚ) (m : ℕ) : ℕ → Bool :=
  (cluster_loop feats depthAt m).1

/-- `DepthSpeedTracker.cluster_features_into_objects`: empty input yields no
objects; features are filtered to motion-significant ones
(`magnitude > 2.0`); fewer than 3 such points yields no objects; otherwise
the greedy loop runs over every filtered point. -/
def cluster_features_into_objects (tracked : List Feature) (depthAt : Pos → ℚ) :
    List ClusterObj :=
  if tracked.length = 0 then []
  else
    let valid := tracked.filter fun f => 4 < mag2 f
    if valid.length < 3 then []
    else (cluster_loop valid depthAt valid.length).2

/-! ### `assign_track_ids` (track associator)

`active_tracks` is a dict `{track_id: last_seen_frame}` (insertion-ordered,
modelled as an association list with distinct keys); `track_history` is read
only through the last stored position of each track, modelled as a function
from track id to its position list.  `self.track_timeout = 30`.  Frame
numbers are integers.  `dist < 150` is `dist2 < 22500`, and
`dist < best_match_dist` between two norms is the same comparison of squared
norms. -/

/-- A detected object as seen by the associator (only `center` is read). -/
structure DObj where
  center : Pos

/-- The last stored position of a track (`track_history[tid][-1][:2]`; only
called on nonempty histories). -/
def last_pos (hist : List Pos) : Pos := hist.getD (hist.length - 1) (0, 0)

/-- Python dict assignment `d[k] = v` on an association list: update in
place when the key is present, append otherwise. -/
def dict_set (l : List (ℕ × ℤ)) (k : ℕ) (v : ℤ) : List (ℕ × ℤ) :=
  if l.any fun p => p.1 = k then l.map fun p => if p.1 = k then (k, v) else p
  else l ++ [(k, v)]

/-- `dist < best_match_dist` with `best_match_dist` starting at infinity:
`true` against the initial `none` accumulator, the squared comparison
against a recorded best. -/
def beats (d2 : ℚ) : Option (ℕ × ℚ) → Bool
  | none => true
  | some b => decide (d2 < b.2)

/-- The best-match scan over the active tracks for one candidate `center`:
considers track ids present in `track_history` with nonempty history, and
keeps the strictly closest one with `dist < 150`. -/
def best_match (hist : ℕ → List Pos) (center : Pos) :
    List (ℕ × ℤ) → Option (ℕ × ℚ) → Option (ℕ × ℚ)
  | [], best => best
  | (tid, _) :: rest, best =>
    let best' :=
      if hist tid ≠ [] then
        let d2 := dist2 center (last_pos (hist tid))
        if d2 < 22500 ∧ beats d2 best = true then some (tid, d2)
        else best
      else best
    best_match hist center rest best'

/-- The per-candidate body of the assignment loop: match against the current
active tracks or issue a fresh id, then set
`active_tracks[track_id] = frame_number`.  The state is
(active table, next fresh id, processed candidates with assigned ids). -/
def assign_step (hist : ℕ → List Pos) (n : ℤ)
    (st : List (ℕ × ℤ) × ℕ × List (DObj × ℕ)) (obj : DObj) :
    List (ℕ × ℤ) × ℕ × List (DObj × ℕ) :=
  match best_match hist obj.center st.1 none with
  | some (tid, _) => (dict_set st.1 tid n, st.2.1, st.2.2 ++ [(obj, tid)])
  | none => (dict_set st.1 st.2.1 n, st.2.1 + 1, st.2.2 ++ [(obj, st.2.1)])

/-- The `for obj in objects` loop of `assign_track_ids`. -/
def assign_loop (hist : ℕ → List Pos) (n : ℤ)
    (st : List (ℕ × ℤ) × ℕ × List (DObj × ℕ)) :
    List DObj → List (ℕ × ℤ) × ℕ × List (DObj × ℕ)
  | [] => st
  | obj :: rest => assign_loop hist n (assign_step hist n st obj) rest

/-- `DepthSpeedTracker.assign_track_ids`: first evict every track whose
`last_seen` is more than `track_timeout = 30` frames behind `frame_number`,
then run the assignment loop over the candidates in order. -/
def assign_track_ids (active : List (ℕ × ℤ)) (hist : ℕ → List Pos) (nextId : ℕ)
    (objects : List DObj) (n : ℤ) : List (ℕ × ℤ) × ℕ × List (DObj × ℕ) :=
  let act1 := active.filter fun p => ¬(30 < n - p.2)
  assign_loop hist n (act1, nextId, []) objects

end DepthSpeedTracker

/-! ## Pixel-ratio pipeline — `VehicleSpeedTracker` (vehicle_speed_tracker.py) -/

namespace VehicleSpeedTracker

/-- One `track_history` entry `(x, y, timestamp, bbox_width)`. -/
structure VSample where
  x : ℝ
  y : ℝ
  t : ℝ
  w : ℝ

instance : Inhabited VSample := ⟨⟨0, 0, 0, 0⟩⟩

/-- The state slice used by `calculate_speed`: the one-shot calibration
(`calibration_done`, `pixels_per_meter`) plus one track's history and stored
speed estimate. -/
structure VState where
  calibrationDone : Bool
  pixelsPerMeter : Option ℝ
  hist : List VSample
  est : Option ℝ

/-- `self.track_history[track_id] = self.track_history[track_id][-30:]`. -/
def vtruncate30 (l : List VSample) : List VSample :=
  if 30 < l.length then l.drop (l.length - 30) else l

/-- `recent_history = history[-15:]`. -/
def recent15 (l : List VSample) : List VSample := l.drop (l.length - 15)

/-- The raw speed value computed from the trailing window: pixel
displacement between first and last samples, divided by `pixels_per_meter`
and elapsed time, times 3.6.  `pixelsPerMeter = none` is unreachable past
the `calibration_done` guard; its default is irrelevant. -/
noncomputable def vraw_speed (ppm : Option ℝ) (w : List VSample) : ℝ :=
  let firstE := wfirst w
  let lastE := wlast w
  let disp := Real.sqrt ((lastE.x - firstE.x) ^ 2 + (lastE.y - firstE.y) ^ 2)
  let timeDiff := lastE.t - firstE.t
  disp / ppm.getD 0 / timeDiff * 3.6

/-- The history after appending the new sample and truncating to 30. -/
def vpost_hist (st : VState) (x y t w : ℝ) : List VSample :=
  vtruncate30 (st.hist ++ [⟨x, y, t, w⟩])

open Classical in
/-- `VehicleSpeedTracker.calculate_speed`: auto-calibrates
`pixels_per_meter = bbox_width / reference_width_meters` on the first call
with a positive bbox width, appends the sample, truncates to 30, requires
≥ 10 samples, uses the trailing 15-sample window, guards
`time_diff == 0 or not calibration_done`, and applies the `0 < speed < 200`
plausibility filter. -/
noncomputable def calculate_speed (referenceWidth : ℝ) (st : VState)
    (x y t w : ℝ) : VState × Option ℝ :=
  let cal := if st.calibrationDone = false ∧ 0 < w then true else st.calibrationDone
  let ppm := if st.calibrationDone = false ∧ 0 < w then some (w / referenceWidth)
    else st.pixelsPerMeter
  let hist2 := vpost_hist st x y t w
  if hist2.length < 10 then (⟨cal, ppm, hist2, st.est⟩, none)
  else
    let recent := recent15 hist2
    if recent.length < 2 then (⟨cal, ppm, hist2, st.est⟩, none)
    else
      let firstE := wfirst recent
      let lastE := wlast recent
      if lastE.t - firstE.t = 0 ∨ cal = false then (⟨cal, ppm, hist2, st.est⟩, none)
      else
        let speed := vraw_speed ppm recent
        if 0 < speed ∧ speed < 200 then (⟨cal, ppm, hist2, some speed⟩, some speed)
        else (⟨cal, ppm, hist2, st.est⟩, none)

end VehicleSpeedTracker

/-! ## Helper lemmas -/

/-- `getD 0` of a nonempty-replicate prefix. -/
theorem getD_replicate_append_zero {α : Type*} {n : ℕ} (hn : 0 < n) (a b d : α) :
    ((List.replicate n a ++ [b]).getD 0 d) = a := by
  rw [List.getD_append _ _ _ _ (by simpa using hn)]
  cases n with
  | zero => omega
  | succ m => simp [List.replicate_succ]

/-- `getD n` of `replicate n a ++ [b]` is `b`. -/
theorem getD_replicate_append_last {α : Type*} (n : ℕ) (a b d : α) :
    ((List.replicate n a ++ [b]).getD n d) = b := by
  rw [List.getD_append_right _ _ _ _ (by simp)]
  simp

/-- The first window entry of a replicate-plus-new history. -/
theorem wfirst_replicate_append {α : Type*} [Inhabited α] {n : ℕ} (hn : 0 < n) (a b : α) :
    wfirst (List.replicate n a ++ [b]) = a := by
  unfold wfirst
  exact getD_replicate_append_zero hn a b default

/-- The last window entry of a replicate-plus-new history. -/
theorem wlast_replicate_append {α : Type*} [Inhabited α] (n : ℕ) (a b : α) :
    wlast (List.replicate n a ++ [b]) = b := by
  unfold wlast
  have hl : (List.replicate n a ++ [b]).length - 1 = n := by simp
  rw [hl]
  exact getD_replicate_append_last n a b default

namespace DepthSpeedTracker

/-! ## C8 — `depth_to_distance` bounds and the uncalibrated heuristic -/

/-- C8: for every depth `d ∈ [0,1]`, `depth_to_distance d` lies in
`[min_object_distance, max_object_distance] = [10, 80]`; when uncalibrated
the pre-clamp value is the three-segment heuristic, which maps
`[0.8, 1] → [10, 20]`, `[0.4, 0.8] → [20, 50]` and `[0, 0.4] → [50, 80]`. -/
theorem depth_to_distance_bounds (calibrated : Bool) (scale offset d : ℚ)
    (h0 : 0 ≤ d) (h1 : d ≤ 1) :
    (10 ≤ depth_to_distance calibrated scale offset d ∧
      depth_to_distance calibrated scale offset d ≤ 80) ∧
    depth_to_distance false scale offset d = min 80 (max 10 (heuristic_distance d)) ∧
    (4/5 ≤ d → 10 ≤ heuristic_distance d ∧ heuristic_distance d ≤ 20) ∧
    (2/5 ≤ d → d ≤ 4/5 → 20 ≤ heuristic_distance d ∧ heuristic_distance d ≤ 50) ∧
    (d ≤ 2/5 → 50 ≤ heuristic_distance d ∧ heuristic_distance d ≤ 80) := by
  refine ⟨⟨?_, ?_⟩, ?_, ?_, ?_, ?_⟩
  · exact le_min (by norm_num) (le_max_left _ _)
  · exact min_le_left _ _
  · simp [depth_to_distance]
  · intro h
    unfold heuristic_distance
    split_ifs with h8 h4 <;> constructor <;> linarith
  · intro ha hb
    unfold heuristic_distance
    split_ifs with h8 h4 <;> constructor <;> linarith
  · intro h
    unfold heuristic_distance
    split_ifs with h8 h4 <;> constructor <;> linarith

/-- Witness for C8 at `d = 1/2` (uncalibrated): the heuristic gives
`20 + (4/5 − 1/2)·75 = 42.5` and the clamped distance equals it. -/
theorem depth_to_distance_bounds_witness :
    (10 ≤ depth_to_distance false 0 0 (1/2) ∧ depth_to_distance false 0 0 (1/2) ≤ 80) ∧
    (20 ≤ heuristic_distance (1/2) ∧ heuristic_distance (1/2) ≤ 50) := by
  have h := depth_to_distance_bounds false 0 0 (1/2) (by norm_num) (by norm_num)
  exact ⟨h.1, h.2.2.2.1 (by norm_num) (by norm_num)⟩

/-! ## Length and window evaluation lemmas -/

/-- Length of the truncated depth history. -/
theorem truncate30_length (l : List Sample) : (truncate30 l).length = min l.length 30 := by
  unfold truncate30
  split_ifs with h <;> simp <;> omega

/-- Length of the 20-sample trailing window. -/
theorem calc_window_length (l : List Sample) : (calc_window l).length = min l.length 20 := by
  unfold calc_window
  simp
  omega

/-- `calc_window` is the identity on histories of at most 20 samples. -/
theorem calc_window_small {l : List Sample} (h : l.length ≤ 20) : calc_window l = l := by
  unfold calc_window
  rw [Nat.sub_eq_zero_of_le h, List.drop_zero]

/-- Appending to a short replicate history does not truncate. -/
theorem post_hist_replicate {n : ℕ} (hn : n + 1 ≤ 30) (s : Sample) (est : Option ℝ)
    (x y : ℝ) (d : ℚ) (t : ℝ) :
    post_hist ⟨List.replicate n s, est⟩ x y d t = List.replicate n s ++ [⟨x, y, d, t⟩] := by
  unfold post_hist truncate30
  rw [if_neg]
  simp
  omega

/-- The guards-passed shape of depth `calculate_speed`: once the history
floor and positive-elapsed-time guards hold, the call reduces to the
plausibility filter over the raw speed. -/
theorem calculate_speed_eval (calibrated : Bool) (scale offset : ℚ) (focal : Option ℝ)
    (st : SpeedState) (x y : ℝ) (d : ℚ) (t : ℝ)
    (h15 : 15 ≤ (post_hist st x y d t).length)
    (hdt : 0 < (wlast (calc_window (post_hist st x y d t))).t -
      (wfirst (calc_window (post_hist st x y d t))).t) :
    calculate_speed calibrated scale offset focal st x y d t =
      if 5 < raw_speed calibrated scale offset focal (calc_window (post_hist st x y d t)) ∧
          raw_speed calibrated scale offset focal (calc_window (post_hist st x y d t)) < 120 then
        (⟨post_hist st x y d t,
            some (smooth st.est
              (raw_speed calibrated scale offset focal (calc_window (post_hist st x y d t))))⟩,
          some (smooth st.est
            (raw_speed calibrated scale offset focal (calc_window (post_hist st x y d t)))))
      else (⟨post_hist st x y d t, st.est⟩, none) := by
  have hw : 2 ≤ (calc_window (post_hist st x y d t)).length := by
    rw [calc_window_length]
    omega
  simp only [calculate_speed]
  rw [if_neg (by omega), if_neg (by omega), if_neg (not_le.mpr hdt)]

/-! ## C2 — history floor before any speed is emitted -/

/-- C2 (amended): the depth pipeline returns `none` on every call made while
the track's history (including the sample just appended) holds fewer than 15
samples; the pixel-ratio pipeline returns `none` while it holds fewer than
10 samples. -/
theorem history_floor :
    (∀ (calibrated : Bool) (scale offset : ℚ) (focal : Option ℝ) (st : SpeedState)
      (x y : ℝ) (d : ℚ) (t : ℝ), st.hist.length + 1 < 15 →
      (calculate_speed calibrated scale offset focal st x y d t).2 = none) ∧
    (∀ (referenceWidth : ℝ) (st : VehicleSpeedTracker.VState) (x y t w : ℝ),
      st.hist.length + 1 < 10 →
      (VehicleSpeedTracker.calculate_speed referenceWidth st x y t w).2 = none) := by
  constructor
  · intro calibrated scale offset focal st x y d t h
    have hlen : (post_hist st x y d t).length = st.hist.length + 1 := by
      unfold post_hist
      rw [truncate30_length]
      simp
      omega
    simp only [calculate_speed]
    rw [if_pos (by omega)]
  · intro referenceWidth st x y t w h
    have hlen : (VehicleSpeedTracker.vpost_hist st x y t w).length = st.hist.length + 1 := by
      unfold VehicleSpeedTracker.vpost_hist VehicleSpeedTracker.vtruncate30
      rw [if_neg]
      · simp
      · simp
        omega
    simp only [VehicleSpeedTracker.calculate_speed]
    rw [if_pos (by omega)]

/-- Witness for C2 (amended) on an empty history: both pipelines withhold a
speed on the first call. -/
theorem history_floor_witness :
    (calculate_speed false 0 0 none ⟨[], none⟩ 0 0 0 0).2 = none ∧
    (VehicleSpeedTracker.calculate_speed (1.8 : ℝ) ⟨false, none, [], none⟩ 0 0 0 0).2
      = none :=
  ⟨history_floor.1 false 0 0 none ⟨[], none⟩ 0 0 0 0 (by simp),
   history_floor.2 1.8 ⟨false, none, [], none⟩ 0 0 0 0 (by simp)⟩

end DepthSpeedTracker

namespace VehicleSpeedTracker

/-- Length of the truncated ratio-pipeline history. -/
theorem vtruncate30_length (l : List VSample) :
    (vtruncate30 l).length = min l.length 30 := by
  unfold vtruncate30
  split_ifs with h <;> simp <;> omega

/-- Length of the 15-sample trailing window. -/
theorem recent15_length (l : List VSample) : (recent15 l).length = min l.length 15 := by
  unfold recent15
  simp
  omega

/-- `recent15` is the identity on histories of at most 15 samples. -/
theorem recent15_small {l : List VSample} (h : l.length ≤ 15) : recent15 l = l := by
  unfold recent15
  rw [Nat.sub_eq_zero_of_le h, List.drop_zero]

/-- Appending to a short replicate history does not truncate. -/
theorem vpost_hist_replicate {n : ℕ} (hn : n + 1 ≤ 30) (cal : Bool) (ppm : Option ℝ)
    (s : VSample) (est : Option ℝ) (x y t w : ℝ) :
    vpost_hist ⟨cal, ppm, List.replicate n s, est⟩ x y t w
      = List.replicate n s ++ [⟨x, y, t, w⟩] := by
  unfold vpost_hist vtruncate30
  rw [if_neg]
  simp
  omega

/-- The guards-passed shape of ratio `calculate_speed` on an
already-calibrated state: the call reduces to the plausibility filter over
the raw speed. -/
theorem vcalculate_speed_eval (referenceWidth : ℝ) (st : VState) (x y t w : ℝ)
    (hcal : st.calibrationDone = true)
    (h10 : 10 ≤ (vpost_hist st x y t w).length)
    (hdt : (wlast (recent15 (vpost_hist st x y t w))).t -
      (wfirst (recent15 (vpost_hist st x y t w))).t ≠ 0) :
    calculate_speed referenceWidth st x y t w =
      if 0 < vraw_speed st.pixelsPerMeter (recent15 (vpost_hist st x y t w)) ∧
          vraw_speed st.pixelsPerMeter (recent15 (vpost_hist st x y t w)) < 200 then
        (⟨true, st.pixelsPerMeter, vpost_hist st x y t w,
            some (vraw_speed st.pixelsPerMeter (recent15 (vpost_hist st x y t w)))⟩,
          some (vraw_speed st.pixelsPerMeter (recent15 (vpost_hist st x y t w))))
      else (⟨true, st.pixelsPerMeter, vpost_hist st x y t w, st.est⟩, none) := by
  have hr : 2 ≤ (recent15 (vpost_hist st x y t w)).length := by
    rw [recent15_length]
    omega
  simp only [calculate_speed, hcal]
  simp only [Bool.true_eq_false, false_and, if_false]
  rw [if_neg (by omega), if_neg (by omega), if_neg (by simp [hdt])]

/-! Concrete ratio-pipeline run used below: an already-calibrated state at
10 px/m with nine identical history samples, then a tenth observation 90 px
away after 0.3 s, giving `90/10/0.3·3.6 = 108` km/h. -/

/-- The concrete appended history of the ratio-pipeline example. -/
theorem ratio_example_post :
    vpost_hist ⟨true, some 10, List.replicate 9 ⟨0, 0, 0, 18⟩, none⟩ 90 0 (3/10) 18
      = List.replicate 9 ⟨0, 0, 0, 18⟩ ++ [⟨90, 0, 3/10, 18⟩] :=
  vpost_hist_replicate (by norm_num) _ _ _ _ _ _ _ _

/-- The trailing window of the ratio-pipeline example is its whole history. -/
theorem ratio_example_recent :
    recent15 (List.replicate 9 (⟨0, 0, 0, 18⟩ : VSample) ++ [⟨90, 0, 3/10, 18⟩])
      = List.replicate 9 ⟨0, 0, 0, 18⟩ ++ [⟨90, 0, 3/10, 18⟩] := recent15_small (by simp)

/-- The ratio-pipeline example meets the 10-sample floor. -/
theorem ratio_example_floor :
    10 ≤ (vpost_hist ⟨true, some 10, List.replicate 9 ⟨0, 0, 0, 18⟩, none⟩
      90 0 (3/10) 18).length := by
  rw [ratio_example_post]
  simp

/-- The ratio-pipeline example has nonzero elapsed time. -/
theorem ratio_example_dt :
    (wlast (recent15 (vpost_hist ⟨true, some 10, List.replicate 9 ⟨0, 0, 0, 18⟩, none⟩
        90 0 (3/10) 18))).t -
      (wfirst (recent15 (vpost_hist ⟨true, some 10, List.replicate 9 ⟨0, 0, 0, 18⟩, none⟩
        90 0 (3/10) 18))).t ≠ 0 := by
  rw [ratio_example_post, ratio_example_recent,
    wfirst_replicate_append (by norm_num : (0:ℕ) < 9), wlast_replicate_append 9]
  norm_num

/-- The raw speed of the ratio-pipeline example is 108 km/h. -/
theorem ratio_example_raw :
    vraw_speed (some 10) (recent15 (vpost_hist
        ⟨true, some 10, List.replicate 9 ⟨0, 0, 0, 18⟩, none⟩ 90 0 (3/10) 18)) = 108 := by
  rw [ratio_example_post, ratio_example_recent]
  have hsqrt : Real.sqrt (((90 : ℝ) - 0) ^ 2 + ((0 : ℝ) - 0) ^ 2) = 90 := by
    rw [show ((90 : ℝ) - 0) ^ 2 + ((0 : ℝ) - 0) ^ 2 = 90 ^ 2 by norm_num]
    exact Real.sqrt_sq (by norm_num)
  unfold vraw_speed
  rw [wfirst_replicate_append (by norm_num : (0:ℕ) < 9), wlast_replicate_append 9]
  simp only
  rw [hsqrt]
  norm_num

/-- Counterexample to C2 as stated: a call on the ratio pipeline whose track
history holds only 10 samples (fewer than 15) returns a speed
(108 km/h: 90 px at 10 px/m over 0.3 s). -/
theorem ratio_pipeline_speed_below_fifteen_counterexample :
    (calculate_speed (1.8 : ℝ)
        ⟨true, some 10, List.replicate 9 ⟨0, 0, 0, 18⟩, none⟩ 90 0 (3/10) 18).2
      = some 108 ∧
    (List.replicate 9 (⟨0, 0, 0, 18⟩ : VSample)).length + 1 < 15 := by
  refine ⟨?_, by simp⟩
  rw [vcalculate_speed_eval _ _ _ _ _ _ rfl ratio_example_floor ratio_example_dt]
  rw [show (⟨true, some 10, List.replicate 9 ⟨0, 0, 0, 18⟩, none⟩ :
    VState).pixelsPerMeter = some 10 from rfl]
  rw [ratio_example_raw]
  rw [if_pos (by norm_num)]

end VehicleSpeedTracker

namespace DepthSpeedTracker

/-! ## C3 — plausibility filter ranges -/

/-- C3 (amended): once a raw speed is actually computed (history floor met,
positive/nonzero elapsed time, ratio pipeline calibrated), the call returns
`none` and leaves the stored estimate unchanged exactly when the raw speed
falls outside the admissible range — the OPEN interval `(5, 120)` km/h for
the depth pipeline, `(0, 200)` km/h for the ratio pipeline. -/
theorem speed_plausibility_filter :
    (∀ (calibrated : Bool) (scale offset : ℚ) (focal : Option ℝ) (st : SpeedState)
      (x y : ℝ) (d : ℚ) (t : ℝ),
      15 ≤ (post_hist st x y d t).length →
      0 < (wlast (calc_window (post_hist st x y d t))).t -
        (wfirst (calc_window (post_hist st x y d t))).t →
      (((calculate_speed calibrated scale offset focal st x y d t).2 = none ↔
          ¬(5 < raw_speed calibrated scale offset focal (calc_window (post_hist st x y d t)) ∧
            raw_speed calibrated scale offset focal (calc_window (post_hist st x y d t)) < 120)) ∧
        ((calculate_speed calibrated scale offset focal st x y d t).2 = none →
          (calculate_speed calibrated scale offset focal st x y d t).1.est = st.est))) ∧
    (∀ (referenceWidth : ℝ) (st : VehicleSpeedTracker.VState) (x y t w : ℝ),
      st.calibrationDone = true →
      10 ≤ (VehicleSpeedTracker.vpost_hist st x y t w).length →
      (wlast (VehicleSpeedTracker.recent15 (VehicleSpeedTracker.vpost_hist st x y t w))).t -
        (wfirst (VehicleSpeedTracker.recent15 (VehicleSpeedTracker.vpost_hist st x y t w))).t ≠ 0 →
      (((VehicleSpeedTracker.calculate_speed referenceWidth st x y t w).2 = none ↔
          ¬(0 < VehicleSpeedTracker.vraw_speed st.pixelsPerMeter
              (VehicleSpeedTracker.recent15 (VehicleSpeedTracker.vpost_hist st x y t w)) ∧
            VehicleSpeedTracker.vraw_speed st.pixelsPerMeter
              (VehicleSpeedTracker.recent15 (VehicleSpeedTracker.vpost_hist st x y t w)) < 200)) ∧
        ((VehicleSpeedTracker.calculate_speed referenceWidth st x y t w).2 = none →
          (VehicleSpeedTracker.calculate_speed referenceWidth st x y t w).1.est = st.est))) := by
  constructor
  · intro calibrated scale offset focal st x y d t h15 hdt
    rw [calculate_speed_eval calibrated scale offset focal st x y d t h15 hdt]
    by_cases hc : 5 < raw_speed calibrated scale offset focal
        (calc_window (post_hist st x y d t)) ∧
        raw_speed calibrated scale offset focal (calc_window (post_hist st x y d t)) < 120
    · rw [if_pos hc]
      simp [hc]
    · rw [if_neg hc]
      simp [hc]
  · intro referenceWidth st x y t w hcal h10 hdt
    rw [VehicleSpeedTracker.vcalculate_speed_eval referenceWidth st x y t w hcal h10 hdt]
    by_cases hc : 0 < VehicleSpeedTracker.vraw_speed st.pixelsPerMeter
        (VehicleSpeedTracker.recent15 (VehicleSpeedTracker.vpost_hist st x y t w)) ∧
        VehicleSpeedTracker.vraw_speed st.pixelsPerMeter
          (VehicleSpeedTracker.recent15 (VehicleSpeedTracker.vpost_hist st x y t w)) < 200
    · rw [if_pos hc]
      simp [hc]
    · rw [if_neg hc]
      simp [hc]

/-! Concrete depth-pipeline runs used below: fourteen identical history
samples at the origin with depth 1, then an observation `X` pixels away
9 seconds later.  The estimated distance is 10 m (depth 1, uncalibrated),
the focal default is 1600 px, so the raw speed is
`X·10/1600/9·3.6 = X/400` km/h. -/

/-- The concrete appended history of the depth-pipeline examples. -/
theorem depth_example_post (X : ℝ) (est : Option ℝ) :
    post_hist ⟨List.replicate 14 ⟨0, 0, 1, 0⟩, est⟩ X 0 1 9
      = List.replicate 14 ⟨0, 0, 1, 0⟩ ++ [⟨X, 0, 1, 9⟩] :=
  post_hist_replicate (by norm_num) _ _ _ _ _ _

/-- The trailing window of the depth-pipeline examples is the whole
15-sample history. -/
theorem depth_example_window (X : ℝ) :
    calc_window (List.replicate 14 (⟨0, 0, 1, 0⟩ : Sample) ++ [⟨X, 0, 1, 9⟩])
      = List.replicate 14 ⟨0, 0, 1, 0⟩ ++ [⟨X, 0, 1, 9⟩] := calc_window_small (by simp)

/-- The depth-pipeline examples meet the 15-sample floor. -/
theorem depth_example_floor (X : ℝ) (est : Option ℝ) :
    15 ≤ (post_hist ⟨List.replicate 14 ⟨0, 0, 1, 0⟩, est⟩ X 0 1 9).length := by
  rw [depth_example_post]
  simp

/-- The depth-pipeline examples have positive elapsed time. -/
theorem depth_example_dt (X : ℝ) (est : Option ℝ) :
    0 < (wlast (calc_window (post_hist ⟨List.replicate 14 ⟨0, 0, 1, 0⟩, est⟩ X 0 1 9))).t -
      (wfirst (calc_window (post_hist ⟨List.replicate 14 ⟨0, 0, 1, 0⟩, est⟩ X 0 1 9))).t := by
  rw [depth_example_post, depth_example_window,
    wfirst_replicate_append (by norm_num : (0:ℕ) < 14), wlast_replicate_append 14]
  norm_num

/-- The raw speed of the depth-pipeline examples is `X/400` km/h. -/
theorem depth_example_raw (X : ℝ) (hX : 0 ≤ X) (est : Option ℝ) :
    raw_speed false 0 0 none
        (calc_window (post_hist ⟨List.replicate 14 ⟨0, 0, 1, 0⟩, est⟩ X 0 1 9)) = X / 400 := by
  rw [depth_example_post, depth_example_window]
  unfold raw_speed
  rw [wfirst_replicate_append (by norm_num : (0:ℕ) < 14), wlast_replicate_append 14]
  simp only
  rw [show (X - 0) ^ 2 + ((0 : ℝ) - 0) ^ 2 = X ^ 2 by ring, Real.sqrt_sq hX]
  rw [show depth_to_distance false 0 0 (((1 : ℚ) + 1) / 2) = 10 by
    norm_num [depth_to_distance, heuristic_distance]]
  norm_num
  ring

/-- Counterexample to C3 as stated: the raw speed 5 km/h lies inside the
claimed closed range `[5, 120]`, yet the depth pipeline discards it
(`5 < speed` is strict) and leaves the stored estimate untouched. -/
theorem depth_filter_boundary_counterexample :
    raw_speed false 0 0 none (calc_window (post_hist
        ⟨List.replicate 14 ⟨0, 0, 1, 0⟩, some 40⟩ 2000 0 1 9)) = 5 ∧
    (calculate_speed false 0 0 none
        ⟨List.replicate 14 ⟨0, 0, 1, 0⟩, some 40⟩ 2000 0 1 9).2 = none ∧
    (calculate_speed false 0 0 none
        ⟨List.replicate 14 ⟨0, 0, 1, 0⟩, some 40⟩ 2000 0 1 9).1.est = some 40 := by
  have hraw5 : raw_speed false 0 0 none (calc_window (post_hist
      ⟨List.replicate 14 ⟨0, 0, 1, 0⟩, some 40⟩ 2000 0 1 9)) = 5 := by
    rw [depth_example_raw 2000 (by norm_num) (some 40)]
    norm_num
  have hcalc : calculate_speed false 0 0 none
      ⟨List.replicate 14 ⟨0, 0, 1, 0⟩, some 40⟩ 2000 0 1 9
      = (⟨post_hist ⟨List.replicate 14 ⟨0, 0, 1, 0⟩, some 40⟩ 2000 0 1 9, some 40⟩, none) := by
    rw [calculate_speed_eval false 0 0 none _ 2000 0 1 9
      (depth_example_floor 2000 (some 40)) (depth_example_dt 2000 (some 40))]
    rw [if_neg (by rw [hraw5]; norm_num)]
  exact ⟨hraw5, by rw [hcalc], by rw [hcalc]⟩

/-- Witness for C3 (amended), instantiating both pipelines: the depth call
whose raw speed is exactly 5 km/h, and the calibrated ratio call whose raw
speed is 108 km/h. -/
theorem speed_plausibility_filter_witness :
    (((calculate_speed false 0 0 none
        ⟨List.replicate 14 ⟨0, 0, 1, 0⟩, some 40⟩ 2000 0 1 9).2 = none ↔
      ¬(5 < raw_speed false 0 0 none (calc_window (post_hist
          ⟨List.replicate 14 ⟨0, 0, 1, 0⟩, some 40⟩ 2000 0 1 9)) ∧
        raw_speed false 0 0 none (calc_window (post_hist
          ⟨List.replicate 14 ⟨0, 0, 1, 0⟩, some 40⟩ 2000 0 1 9)) < 120)) ∧
     ((calculate_speed false 0 0 none
        ⟨List.replicate 14 ⟨0, 0, 1, 0⟩, some 40⟩ 2000 0 1 9).2 = none →
      (calculate_speed false 0 0 none
        ⟨List.replicate 14 ⟨0, 0, 1, 0⟩, some 40⟩ 2000 0 1 9).1.est = some 40)) ∧
    (((VehicleSpeedTracker.calculate_speed (1.8 : ℝ)
        ⟨true, some 10, List.replicate 9 ⟨0, 0, 0, 18⟩, none⟩ 90 0 (3/10) 18).2 = none ↔
      ¬(0 < VehicleSpeedTracker.vraw_speed (some 10)
          (VehicleSpeedTracker.recent15 (VehicleSpeedTracker.vpost_hist
            ⟨true, some 10, List.replicate 9 ⟨0, 0, 0, 18⟩, none⟩ 90 0 (3/10) 18)) ∧
        VehicleSpeedTracker.vraw_speed (some 10)
          (VehicleSpeedTracker.recent15 (VehicleSpeedTracker.vpost_hist
            ⟨true, some 10, List.replicate 9 ⟨0, 0, 0, 18⟩, none⟩ 90 0 (3/10) 18)) < 200)) ∧
     ((VehicleSpeedTracker.calculate_speed (1.8 : ℝ)
        ⟨true, some 10, List.replicate 9 ⟨0, 0, 0, 18⟩, none⟩ 90 0 (3/10) 18).2 = none →
      (VehicleSpeedTracker.calculate_speed (1.8 : ℝ)
        ⟨true, some 10, List.replicate 9 ⟨0, 0, 0, 18⟩, none⟩ 90 0 (3/10) 18).1.est = none)) :=
  ⟨speed_plausibility_filter.1 false 0 0 none ⟨List.replicate 14 ⟨0, 0, 1, 0⟩, some 40⟩
      2000 0 1 9 (depth_example_floor 2000 (some 40)) (depth_example_dt 2000 (some 40)),
   speed_plausibility_filter.2 1.8 ⟨true, some 10, List.replicate 9 ⟨0, 0, 0, 18⟩, none⟩
      90 0 (3/10) 18 rfl VehicleSpeedTracker.ratio_example_floor
      VehicleSpeedTracker.ratio_example_dt⟩

/-! ## C4 — jump limiter of the depth pipeline -/

/-- C4: when the depth pipeline already stores an estimate `p` and a new raw
estimate passes the plausibility filter while differing from `p` by more
than 30 km/h, the emitted value is the average `(raw + p)/2`; consequently
any emitted value differs from `p` by at most `max 30 (|raw − p|/2)`. -/
theorem jump_limiter (calibrated : Bool) (scale offset : ℚ) (focal : Option ℝ)
    (st : SpeedState) (x y : ℝ) (d : ℚ) (t : ℝ) (p : ℝ)
    (h15 : 15 ≤ (post_hist st x y d t).length)
    (hdt : 0 < (wlast (calc_window (post_hist st x y d t))).t -
      (wfirst (calc_window (post_hist st x y d t))).t)
    (hprev : st.est = some p) :
    ((5 < raw_speed calibrated scale offset focal (calc_window (post_hist st x y d t)) ∧
      raw_speed calibrated scale offset focal (calc_window (post_hist st x y d t)) < 120) →
      30 < |raw_speed calibrated scale offset focal (calc_window (post_hist st x y d t)) - p| →
      (calculate_speed calibrated scale offset focal st x y d t).2
        = some ((raw_speed calibrated scale offset focal (calc_window (post_hist st x y d t))
            + p) / 2)) ∧
    (∀ e, (calculate_speed calibrated scale offset focal st x y d t).2 = some e →
      |e - p| ≤ max 30
        (|raw_speed calibrated scale offset focal (calc_window (post_hist st x y d t)) - p|
          / 2)) := by
  rw [calculate_speed_eval calibrated scale offset focal st x y d t h15 hdt]
  set raw := raw_speed calibrated scale offset focal (calc_window (post_hist st x y d t))
  constructor
  · intro hc hj
    rw [if_pos hc]
    simp only [smooth, hprev]
    rw [if_pos hj]
  · intro e he
    by_cases hc : 5 < raw ∧ raw < 120
    · rw [if_pos hc] at he
      simp only [smooth, hprev] at he
      have he' : (if 30 < |raw - p| then (raw + p) / 2 else raw) = e := Option.some.inj he
      by_cases hj : 30 < |raw - p|
      · rw [if_pos hj] at he'
        have : e - p = (raw - p) / 2 := by rw [← he']; ring
        rw [this, abs_div]
        simp only [abs_two]
        exact le_max_right _ _
      · rw [if_neg hj] at he'
        have : e - p = raw - p := by rw [← he']
        rw [this]
        exact le_trans (le_of_not_lt hj) (le_max_left _ _)
    · rw [if_neg hc] at he
      simp at he

/-- Witness for C4: fourteen samples with stored estimate 100 km/h, a new
observation whose raw speed is 50 km/h (a 50 km/h jump), emitting the
average 75 km/h. -/
theorem jump_limiter_witness :
    (calculate_speed false 0 0 none
        ⟨List.replicate 14 ⟨0, 0, 1, 0⟩, some 100⟩ 20000 0 1 9).2 = some 75 := by
  have hraw : raw_speed false 0 0 none (calc_window (post_hist
      ⟨List.replicate 14 ⟨0, 0, 1, 0⟩, some 100⟩ 20000 0 1 9)) = 50 := by
    rw [depth_example_raw 20000 (by norm_num) (some 100)]
    norm_num
  have h := (jump_limiter false 0 0 none ⟨List.replicate 14 ⟨0, 0, 1, 0⟩, some 100⟩
    20000 0 1 9 100 (depth_example_floor 20000 (some 100))
    (depth_example_dt 20000 (some 100)) rfl).1
    (by rw [hraw]; norm_num) (by rw [hraw]; norm_num)
  rw [h, hraw]
  norm_num

/-! ## C7 — motion compensator contract -/

/-- C7: `estimate_global_motion` returns a vector only when at least 10
valid tracked border-band points exist, and that vector is the
(component-wise) median of the per-point displacement vectors with magnitude
above the 2-pixel significance threshold; with fewer than 10 valid points,
or a median at or below the threshold, it returns `none`. -/
theorem estimate_global_motion_contract (sf : Option (List Pos)) (flow : List (Pos × Bool)) :
    (∀ v, estimate_global_motion sf flow = some v →
      10 ≤ (valid_tracked sf flow).length ∧
      v = (median ((motion_vectors sf flow).map Prod.fst),
           median ((motion_vectors sf flow).map Prod.snd)) ∧
      2 < Real.sqrt ((v.1 : ℝ) ^ 2 + (v.2 : ℝ) ^ 2)) ∧
    ((valid_tracked sf flow).length < 10 → estimate_global_motion sf flow = none) ∧
    (Real.sqrt (((median ((motion_vectors sf flow).map Prod.fst) : ℚ) : ℝ) ^ 2 +
        ((median ((motion_vectors sf flow).map Prod.snd) : ℚ) : ℝ) ^ 2) ≤ 2 →
      estimate_global_motion sf flow = none) := by
  match sf with
  | none =>
    refine ⟨?_, ?_, ?_⟩ <;> intro _ <;> simp_all [estimate_global_motion]
  | some feats =>
    simp only [estimate_global_motion]
    by_cases hfe : feats.length < 10
    · rw [if_pos hfe]
      exact ⟨fun v hv => by simp at hv, fun _ => rfl, fun _ => rfl⟩
    · rw [if_neg hfe]
      by_cases hg : (valid_tracked (some feats) flow).length < 10
      · rw [if_pos hg]
        exact ⟨fun v hv => by simp at hv, fun _ => rfl, fun _ => rfl⟩
      · rw [if_neg hg]
        by_cases hm : 4 < (median ((motion_vectors (some feats) flow).map Prod.fst)) ^ 2 +
            (median ((motion_vectors (some feats) flow).map Prod.snd)) ^ 2
        · rw [if_pos hm]
          refine ⟨?_, fun h => absurd h hg, ?_⟩
          · intro v hv
            have hveq : v = (median ((motion_vectors (some feats) flow).map Prod.fst),
                median ((motion_vectors (some feats) flow).map Prod.snd)) :=
              (Option.some.inj hv).symm
            refine ⟨le_of_not_lt hg, hveq, ?_⟩
            rw [hveq]
            rw [show ((2:ℝ) = √(2 ^ 2)) from (Real.sqrt_sq (by norm_num)).symm]
            apply Real.sqrt_lt_sqrt (by norm_num)
            exact_mod_cast hm
          · intro hle
            exfalso
            have h2 : (2 : ℝ) < Real.sqrt
                (((median ((motion_vectors (some feats) flow).map Prod.fst) : ℚ) : ℝ) ^ 2 +
                  ((median ((motion_vectors (some feats) flow).map Prod.snd) : ℚ) : ℝ) ^ 2) := by
              rw [Real.lt_sqrt (by norm_num)]
              exact_mod_cast hm
            linarith
        · rw [if_neg hm]
          exact ⟨fun v hv => by simp at hv, fun h => absurd h hg, fun _ => rfl⟩

/-- The valid tracked points of an all-good replicate input. -/
theorem valid_tracked_replicate (n : ℕ) (p q : Pos) :
    valid_tracked (some (List.replicate n p)) (List.replicate n (q, true))
      = List.replicate n (p, q) := by
  induction n with
  | zero => rfl
  | succ k ih =>
    unfold valid_tracked at ih ⊢
    simp only [List.replicate_succ, List.zip_cons_cons, List.filter_cons] at ih ⊢
    simp [ih]

/-- The motion vectors of an all-good replicate input. -/
theorem motion_vectors_replicate (n : ℕ) (p q : Pos) :
    motion_vectors (some (List.replicate n p)) (List.replicate n (q, true))
      = List.replicate n (q.1 - p.1, q.2 - p.2) := by
  unfold motion_vectors
  rw [valid_tracked_replicate, List.map_replicate]

/-- The sort underlying `median` fixes constant lists. -/
theorem insertionSort_replicate (n : ℕ) (q : ℚ) :
    List.insertionSort (· ≤ ·) (List.replicate n q) = List.replicate n q := by
  induction n with
  | zero => rfl
  | succ k ih =>
    rw [List.replicate_succ, List.insertionSort, ih]
    cases k with
    | zero => rfl
    | succ m =>
      rw [List.replicate_succ, List.orderedInsert, if_pos le_rfl]

/-- The median of a constant list is that constant. -/
theorem median_replicate (n : ℕ) (hn : 0 < n) (q : ℚ) :
    median (List.replicate n q) = q := by
  unfold median
  rw [insertionSort_replicate]
  have hget : ∀ i, i < n → (List.replicate n q).getD i 0 = q := by
    intro i hi
    rw [List.getD_eq_getElem _ _ (by simpa using hi)]
    simp
  simp only [List.length_replicate]
  split_ifs with hodd
  · exact hget _ (by omega)
  · rw [hget _ (by omega), hget _ (by omega)]
    ring

/-- Witness for C7: eleven valid points all displaced by `(10, 0)` yield the
median vector `(10, 0)` of magnitude 10 > 2; an absent feature set (0 valid
points) yields `none`; eleven valid points displaced by `(1, 0)` (median
magnitude 1 ≤ 2) yield `none`. -/
theorem estimate_global_motion_contract_witness :
    (10 ≤ (valid_tracked (some (List.replicate 11 ((0 : ℚ), (0 : ℚ))))
        (List.replicate 11 (((10 : ℚ), (0 : ℚ)), true))).length ∧
      ((10 : ℚ), (0 : ℚ)) =
        (median ((motion_vectors (some (List.replicate 11 ((0 : ℚ), (0 : ℚ))))
          (List.replicate 11 (((10 : ℚ), (0 : ℚ)), true))).map Prod.fst),
         median ((motion_vectors (some (List.replicate 11 ((0 : ℚ), (0 : ℚ))))
          (List.replicate 11 (((10 : ℚ), (0 : ℚ)), true))).map Prod.snd)) ∧
      2 < Real.sqrt ((((10 : ℚ) : ℝ)) ^ 2 + (((0 : ℚ) : ℝ)) ^ 2)) ∧
    estimate_global_motion none [] = none ∧
    estimate_global_motion (some (List.replicate 11 ((0 : ℚ), (0 : ℚ))))
      (List.replicate 11 (((1 : ℚ), (0 : ℚ)), true)) = none := by
  have hmv10 : motion_vectors (some (List.replicate 11 ((0 : ℚ), (0 : ℚ))))
      (List.replicate 11 (((10 : ℚ), (0 : ℚ)), true)) = List.replicate 11 (10, 0) := by
    rw [motion_vectors_replicate]
    norm_num
  have hmv1 : motion_vectors (some (List.replicate 11 ((0 : ℚ), (0 : ℚ))))
      (List.replicate 11 (((1 : ℚ), (0 : ℚ)), true)) = List.replicate 11 (1, 0) := by
    rw [motion_vectors_replicate]
    norm_num
  refine ⟨?_, ?_, ?_⟩
  · apply (estimate_global_motion_contract
      (some (List.replicate 11 ((0 : ℚ), (0 : ℚ))))
      (List.replicate 11 (((10 : ℚ), (0 : ℚ)), true))).1 (10, 0)
    simp only [estimate_global_motion]
    rw [if_neg (by simp)]
    rw [if_neg (by rw [valid_tracked_replicate]; simp)]
    rw [hmv10, List.map_replicate, List.map_replicate]
    simp only
    rw [median_replicate 11 (by norm_num), median_replicate 11 (by norm_num)]
    rw [if_pos (by norm_num)]
  · exact (estimate_global_motion_contract none []).2.1 (by simp [valid_tracked])
  · apply (estimate_global_motion_contract
      (some (List.replicate 11 ((0 : ℚ), (0 : ℚ))))
      (List.replicate 11 (((1 : ℚ), (0 : ℚ)), true))).2.2
    rw [hmv1, List.map_replicate, List.map_replicate]
    simp only
    rw [median_replicate 11 (by norm_num), median_replicate 11 (by norm_num)]
    rw [show (((1 : ℚ) : ℝ)) ^ 2 + (((0 : ℚ) : ℝ)) ^ 2 = 1 by push_cast; norm_num]
    rw [Real.sqrt_one]
    norm_num

end DepthSpeedTracker

namespace DepthSpeedTracker

/-! ## C10 — greedy consumption in the clusterer -/

/-- The used-component of one more loop iteration: unchanged for a consumed
or sparse seed, otherwise every member of the seed's cluster is marked —
regardless of the bounding-box plausibility outcome. -/
theorem cluster_loop_fst_succ (feats : List Feature) (depthAt : Pos → ℚ) (m : ℕ) :
    (cluster_loop feats depthAt (m + 1)).1 =
      if (cluster_loop feats depthAt m).1 m then (cluster_loop feats depthAt m).1
      else if (cluster_of (feats.map (·.pos)) m).length < 5 then
        (cluster_loop feats depthAt m).1
      else fun k => (cluster_loop feats depthAt m).1 k ||
        decide (k ∈ cluster_of (feats.map (·.pos)) m) := by
  simp only [cluster_loop]
  split_ifs <;> rfl

/-- Consumption after the first `m` seeds, characterised: an index is used
iff some already-processed seed was itself unconsumed at its turn, had a
cluster of at least 5 members, and that cluster contains the index. -/
theorem used_after_iff (feats : List Feature) (depthAt : Pos → ℚ) (m j : ℕ) :
    used_after feats depthAt m j = true ↔
      ∃ i, i < m ∧ used_after feats depthAt i i = false ∧
        5 ≤ (cluster_of (feats.map (·.pos)) i).length ∧
        j ∈ cluster_of (feats.map (·.pos)) i := by
  induction m with
  | zero =>
    simp [used_after, cluster_loop]
  | succ m ih =>
    unfold used_after
    rw [cluster_loop_fst_succ]
    by_cases hA : (cluster_loop feats depthAt m).1 m
    · rw [if_pos hA]
      rw [show (cluster_loop feats depthAt m).1 = used_after feats depthAt m from rfl]
      rw [ih]
      constructor
      · rintro ⟨i, hi, hrest⟩
        exact ⟨i, by omega, hrest⟩
      · rintro ⟨i, hi, hfalse, hrest⟩
        rcases Nat.lt_succ_iff_lt_or_eq.mp hi with hlt | heq
        · exact ⟨i, hlt, hfalse, hrest⟩
        · subst heq
          rw [hfalse] at hA
          exact Bool.noConfusion hA
    · rw [if_neg hA]
      by_cases hB : (cluster_of (feats.map (·.pos)) m).length < 5
      · rw [if_pos hB]
        rw [show (cluster_loop feats depthAt m).1 = used_after feats depthAt m from rfl]
        rw [ih]
        constructor
        · rintro ⟨i, hi, hrest⟩
          exact ⟨i, by omega, hrest⟩
        · rintro ⟨i, hi, hfalse, hlen, hmem⟩
          rcases Nat.lt_succ_iff_lt_or_eq.mp hi with hlt | heq
          · exact ⟨i, hlt, hfalse, hlen, hmem⟩
          · subst heq
            omega
      · rw [if_neg hB]
        simp only [Bool.or_eq_true, decide_eq_true_eq]
        rw [show (cluster_loop feats depthAt m).1 = used_after feats depthAt m from rfl]
        rw [ih]
        constructor
        · rintro (⟨i, hi, hrest⟩ | hmem)
          · exact ⟨i, by omega, hrest⟩
          · exact ⟨m, by omega, by simpa [used_after] using hA, by omega, hmem⟩
        · rintro ⟨i, hi, hfalse, hlen, hmem⟩
          rcases Nat.lt_succ_iff_lt_or_eq.mp hi with hlt | heq
          · exact Or.inl ⟨i, hlt, hfalse, hlen, hmem⟩
          · subst heq
            exact Or.inr hmem

/-- C10: after the greedy clustering pass over all (motion-significant,
filtered) feature points, a point is marked consumed exactly when the 80-px
cluster seeded at some point — a seed being a point still unconsumed when
its turn came — has at least 5 members and contains it.  Whether the cluster
is afterwards rejected by the bounding-box plausibility heuristics does not
appear in the characterisation: members of a big cluster are consumed either
way, and points of sparse clusters stay available to later seeds. -/
theorem cluster_consumption (feats : List Feature) (depthAt : Pos → ℚ) (j : ℕ) :
    used_after feats depthAt feats.length j = true ↔
      ∃ i, i < feats.length ∧ used_after feats depthAt i i = false ∧
        5 ≤ (cluster_of (feats.map (·.pos)) i).length ∧
        j ∈ cluster_of (feats.map (·.pos)) i :=
  used_after_iff feats depthAt feats.length j

/-! ## C5 — track association and eviction -/

/-- Starting the scan from a recorded best only improves (never worsens) the
best squared distance. -/
theorem best_match_acc_le (hist : ℕ → List Pos) (center : Pos) :
    ∀ (l : List (ℕ × ℤ)) (t : ℕ) (d : ℚ),
      ∃ t' d', best_match hist center l (some (t, d)) = some (t', d') ∧ d' ≤ d := by
  intro l
  induction l with
  | nil =>
    intro t d
    exact ⟨t, d, rfl, le_refl d⟩
  | cons p rest ih =>
    intro t d
    obtain ⟨tid, fr⟩ := p
    simp only [best_match]
    by_cases hne : hist tid ≠ []
    · rw [if_pos hne]
      by_cases hcond : dist2 center (last_pos (hist tid)) < 22500 ∧
          beats (dist2 center (last_pos (hist tid))) (some (t, d)) = true
      · rw [if_pos hcond]
        obtain ⟨t', d', heq, hle⟩ := ih tid (dist2 center (last_pos (hist tid)))
        have hlt : dist2 center (last_pos (hist tid)) < d := by
          have h := hcond.2
          simpa [beats] using h
        exact ⟨t', d', heq, le_trans hle (le_of_lt hlt)⟩
      · rw [if_neg hcond]
        exact ih t d
    · rw [if_neg hne]
      exact ih t d

/-- Soundness of the best-match scan: a returned match is either the
starting accumulator or an active track with nonempty history, at its true
squared distance, within the 150-px gate. -/
theorem best_match_sound (hist : ℕ → List Pos) (center : Pos) :
    ∀ (l : List (ℕ × ℤ)) (b : Option (ℕ × ℚ)) (t : ℕ) (d : ℚ),
      best_match hist center l b = some (t, d) →
      b = some (t, d) ∨
        ((∃ fr, (t, fr) ∈ l) ∧ hist t ≠ [] ∧
          d = dist2 center (last_pos (hist t)) ∧ d < 22500) := by
  intro l
  induction l with
  | nil =>
    intro b t d h
    simp only [best_match] at h
    exact Or.inl h
  | cons p rest ih =>
    intro b t d h
    obtain ⟨tid, fr⟩ := p
    simp only [best_match] at h
    by_cases hne : hist tid ≠ []
    · rw [if_pos hne] at h
      by_cases hcond : dist2 center (last_pos (hist tid)) < 22500 ∧
          beats (dist2 center (last_pos (hist tid))) b = true
      · rw [if_pos hcond] at h
        rcases ih _ t d h with hb | ⟨⟨fr', hfr'⟩, hrest⟩
        · injection hb with hb'
          injection hb' with ht hd
          subst ht
          subst hd
          exact Or.inr ⟨⟨fr, List.mem_cons_self _ _⟩, hne, rfl, hcond.1⟩
        · exact Or.inr ⟨⟨fr', List.mem_cons_of_mem _ hfr'⟩, hrest⟩
      · rw [if_neg hcond] at h
        rcases ih _ t d h with hb | ⟨⟨fr', hfr'⟩, hrest⟩
        · exact Or.inl hb
        · exact Or.inr ⟨⟨fr', List.mem_cons_of_mem _ hfr'⟩, hrest⟩
    · rw [if_neg hne] at h
      rcases ih _ t d h with hb | ⟨⟨fr', hfr'⟩, hrest⟩
      · exact Or.inl hb
      · exact Or.inr ⟨⟨fr', List.mem_cons_of_mem _ hfr'⟩, hrest⟩

/-- Progress of the best-match scan: any active track with nonempty history
within the 150-px gate forces a match at a distance no worse than its own. -/
theorem best_match_close (hist : ℕ → List Pos) (center : Pos) :
    ∀ (l : List (ℕ × ℤ)) (b : Option (ℕ × ℚ)) (tid : ℕ) (fr : ℤ),
      (tid, fr) ∈ l → hist tid ≠ [] →
      dist2 center (last_pos (hist tid)) < 22500 →
      ∃ t' d', best_match hist center l b = some (t', d') ∧
        d' ≤ dist2 center (last_pos (hist tid)) := by
  intro l
  induction l with
  | nil =>
    intro b tid fr hmem
    exact absurd hmem (List.not_mem_nil _)
  | cons p rest ih =>
    intro b tid fr hmem hne hclose
    obtain ⟨k, kfr⟩ := p
    simp only [best_match]
    rcases List.mem_cons.mp hmem with hhead | htail
    · injection hhead with h1 h2
      subst h1
      rw [if_pos hne]
      by_cases hb : beats (dist2 center (last_pos (hist tid))) b = true
      · rw [if_pos ⟨hclose, hb⟩]
        exact best_match_acc_le hist center rest tid _
      · rw [if_neg (fun hc => hb hc.2)]
        cases b with
        | none => exact absurd rfl hb
        | some tb =>
          obtain ⟨tbn, db⟩ := tb
          have hdb : ¬(dist2 center (last_pos (hist tid)) < db) := by
            intro hlt
            exact hb (by simp [beats, hlt])
          obtain ⟨t', d', heq, hle⟩ := best_match_acc_le hist center rest tbn db
          exact ⟨t', d', heq, le_trans hle (not_lt.mp hdb)⟩
    · exact ih _ tid fr htail hne hclose

/-- A key present in the table is still present after a dict assignment. -/
theorem dict_set_mem_key {l : List (ℕ × ℤ)} {k : ℕ} {v : ℤ} (k' : ℕ) (w : ℤ)
    (h : (k, v) ∈ l) : ∃ v', (k, v') ∈ dict_set l k' w := by
  unfold dict_set
  split_ifs with hany
  · by_cases hk : k = k'
    · subst hk
      exact ⟨w, List.mem_map.mpr ⟨(k, v), h, by simp⟩⟩
    · exact ⟨v, List.mem_map.mpr ⟨(k, v), h, by simp [hk]⟩⟩
  · exact ⟨v, List.mem_append_left _ h⟩

/-- Every entry after a dict assignment is an old entry or carries the
assigned key. -/
theorem dict_set_mem_src {l : List (ℕ × ℤ)} {k' : ℕ} {w : ℤ} {kv : ℕ × ℤ}
    (h : kv ∈ dict_set l k' w) : kv ∈ l ∨ kv.1 = k' := by
  unfold dict_set at h
  split_ifs at h with hany
  · obtain ⟨p, hp, hpeq⟩ := List.mem_map.mp h
    by_cases hpk : p.1 = k'
    · right
      rw [← hpeq]
      simp [hpk]
    · left
      rw [← hpeq]
      simpa [hpk] using hp
  · rcases List.mem_append.mp h with hl | hr
    · exact Or.inl hl
    · right
      have : kv = (k', w) := by simpa using hr
      rw [this]

/-- In a table with distinct keys, a key determines its value. -/
theorem keys_nodup_val_eq : ∀ {l : List (ℕ × ℤ)}, (l.map Prod.fst).Nodup →
    ∀ {k : ℕ} {a b : ℤ}, (k, a) ∈ l → (k, b) ∈ l → a = b := by
  intro l
  induction l with
  | nil =>
    intro _ k a b ha
    exact absurd ha (List.not_mem_nil _)
  | cons p rest ih =>
    intro hnd k a b ha hb
    rw [List.map_cons, List.nodup_cons] at hnd
    rcases List.mem_cons.mp ha with ha' | ha' <;> rcases List.mem_cons.mp hb with hb' | hb'
    · rw [← hb'] at ha'
      exact congrArg Prod.snd ha'
    · exfalso
      apply hnd.1
      rw [← ha']
      exact List.mem_map.mpr ⟨(k, b), hb', rfl⟩
    · exfalso
      apply hnd.1
      rw [← hb']
      exact List.mem_map.mpr ⟨(k, a), ha', rfl⟩
    · exact ih hnd.2 ha' hb'

/-- One step of the assignment loop: retained keys persist, new keys are
either matched retained tracks or fresh ids, the fresh-id floor persists,
the processed list grows by the candidate — and if the candidate is within
150 px of some retained matchable track, its assigned id is a retained
matchable track at least as close. -/
theorem assign_step_facts (hist : ℕ → List Pos) (n : ℤ) (act1 : List (ℕ × ℤ)) (next0 : ℕ)
    (hhist : ∀ id, next0 ≤ id → hist id = [])
    (st : List (ℕ × ℤ) × ℕ × List (DObj × ℕ)) (obj : DObj)
    (h1 : ∀ p ∈ act1, ∃ v, (p.1, v) ∈ st.1)
    (h2 : ∀ kv ∈ st.1, (∃ v, (kv.1, v) ∈ act1) ∨ next0 ≤ kv.1)
    (h3 : next0 ≤ st.2.1) :
    (∀ p ∈ act1, ∃ v, (p.1, v) ∈ (assign_step hist n st obj).1) ∧
    (∀ kv ∈ (assign_step hist n st obj).1, (∃ v, (kv.1, v) ∈ act1) ∨ next0 ≤ kv.1) ∧
    next0 ≤ (assign_step hist n st obj).2.1 ∧
    (assign_step hist n st obj).2.2.map Prod.fst = st.2.2.map Prod.fst ++ [obj] ∧
    (∀ pr ∈ (assign_step hist n st obj).2.2, pr ∈ st.2.2 ∨
      (∀ q ∈ act1, hist q.1 ≠ [] →
        dist2 pr.1.center (last_pos (hist q.1)) < 22500 →
        ∃ r ∈ act1, hist r.1 ≠ [] ∧ pr.2 = r.1 ∧
          dist2 pr.1.center (last_pos (hist r.1))
            ≤ dist2 pr.1.center (last_pos (hist q.1)))) := by
  unfold assign_step
  cases hbm : best_match hist obj.center st.1 none with
  | none =>
    refine ⟨?_, ?_, ?_, by simp, ?_⟩
    · intro p hp
      obtain ⟨v, hv⟩ := h1 p hp
      exact dict_set_mem_key _ _ hv
    · intro kv hkv
      rcases dict_set_mem_src hkv with hold | hnew
      · exact h2 kv hold
      · right
        rw [hnew]
        exact h3
    · show next0 ≤ st.2.1 + 1
      omega
    · intro pr hpr
      rcases List.mem_append.mp hpr with hold | hnew
      · exact Or.inl hold
      · right
        intro q hq hqne hqclose
        exfalso
        obtain ⟨v, hv⟩ := h1 q hq
        have hpr_eq : pr = (obj, st.2.1) := by simpa using hnew
        rw [hpr_eq] at hqclose
        obtain ⟨t', d', heq, -⟩ :=
          best_match_close hist obj.center st.1 none q.1 v hv hqne hqclose
        rw [hbm] at heq
        exact Option.noConfusion heq
  | some td =>
    obtain ⟨t', d'⟩ := td
    have hsound := best_match_sound hist obj.center st.1 none t' d' hbm
    rcases hsound with hcontra | ⟨⟨fr', hfr'⟩, htne, hdeq, hdlt⟩
    · exact absurd hcontra (fun hx => Option.noConfusion hx)
    refine ⟨?_, ?_, h3, by simp, ?_⟩
    · intro p hp
      obtain ⟨v, hv⟩ := h1 p hp
      exact dict_set_mem_key _ _ hv
    · intro kv hkv
      rcases dict_set_mem_src hkv with hold | hnew
      · exact h2 kv hold
      · rcases h2 (t', fr') hfr' with hact | hge
        · left
          rw [hnew]
          exact hact
        · exact absurd (hhist t' hge) htne
    · intro pr hpr
      rcases List.mem_append.mp hpr with hold | hnew
      · exact Or.inl hold
      · right
        intro q hq hqne hqclose
        have hpr_eq : pr = (obj, t') := by simpa using hnew
        subst hpr_eq
        obtain ⟨v, hv⟩ := h1 q hq
        obtain ⟨t'', d'', heq, hle⟩ :=
          best_match_close hist obj.center st.1 none q.1 v hv hqne hqclose
        rw [hbm] at heq
        injection heq with heq'
        injection heq' with ht hd
        subst ht
        subst hd
        rcases h2 (t', fr') hfr' with ⟨v', hv'⟩ | hge
        · refine ⟨(t', v'), hv', htne, rfl, ?_⟩
          rw [← hdeq]
          exact hle
        · exact absurd (hhist t' hge) htne

/-- The assignment loop preserves the table invariants, pairs every
candidate with an id in order, and every processed candidate close to a
retained matchable track is matched (to one at least as close). -/
theorem assign_loop_facts (hist : ℕ → List Pos) (n : ℤ) (act1 : List (ℕ × ℤ)) (next0 : ℕ)
    (hhist : ∀ id, next0 ≤ id → hist id = []) :
    ∀ (objs : List DObj) (st : List (ℕ × ℤ) × ℕ × List (DObj × ℕ)),
      (∀ p ∈ act1, ∃ v, (p.1, v) ∈ st.1) →
      (∀ kv ∈ st.1, (∃ v, (kv.1, v) ∈ act1) ∨ next0 ≤ kv.1) →
      next0 ≤ st.2.1 →
      (∀ pr ∈ st.2.2, ∀ q ∈ act1, hist q.1 ≠ [] →
        dist2 pr.1.center (last_pos (hist q.1)) < 22500 →
        ∃ r ∈ act1, hist r.1 ≠ [] ∧ pr.2 = r.1 ∧
          dist2 pr.1.center (last_pos (hist r.1))
            ≤ dist2 pr.1.center (last_pos (hist q.1))) →
      (∀ p ∈ act1, ∃ v, (p.1, v) ∈ (assign_loop hist n st objs).1) ∧
      (∀ kv ∈ (assign_loop hist n st objs).1, (∃ v, (kv.1, v) ∈ act1) ∨ next0 ≤ kv.1) ∧
      (assign_loop hist n st objs).2.2.map Prod.fst = st.2.2.map Prod.fst ++ objs ∧
      (∀ pr ∈ (assign_loop hist n st objs).2.2, ∀ q ∈ act1, hist q.1 ≠ [] →
        dist2 pr.1.center (last_pos (hist q.1)) < 22500 →
        ∃ r ∈ act1, hist r.1 ≠ [] ∧ pr.2 = r.1 ∧
          dist2 pr.1.center (last_pos (hist r.1))
            ≤ dist2 pr.1.center (last_pos (hist q.1))) := by
  intro objs
  induction objs with
  | nil =>
    intro st h1 h2 h3 h4
    simp only [assign_loop]
    exact ⟨h1, h2, by simp, h4⟩
  | cons obj rest ih =>
    intro st h1 h2 h3 h4
    simp only [assign_loop]
    obtain ⟨s1, s2, s3, s4, s5⟩ := assign_step_facts hist n act1 next0 hhist st obj h1 h2 h3
    have h4' : ∀ pr ∈ (assign_step hist n st obj).2.2, ∀ q ∈ act1, hist q.1 ≠ [] →
        dist2 pr.1.center (last_pos (hist q.1)) < 22500 →
        ∃ r ∈ act1, hist r.1 ≠ [] ∧ pr.2 = r.1 ∧
          dist2 pr.1.center (last_pos (hist r.1))
            ≤ dist2 pr.1.center (last_pos (hist q.1)) := by
      intro pr hpr
      rcases s5 pr hpr with hold | hnew
      · exact h4 pr hold
      · exact hnew
    obtain ⟨c1, c2, c3, c4⟩ := ih (assign_step hist n st obj) s1 s2 s3 h4'
    refine ⟨c1, c2, ?_, c4⟩
    rw [c3, s4]
    simp

/-- C5: in every `assign_track_ids` call at frame `n` — assuming the
standing invariants that `next_track_id` exceeds every active id and that
only issued ids have histories — every track whose `last_seen` lies more
than 30 frames behind `n` is absent from the resulting active-track table;
every track last seen within 30 frames is retained; every candidate is
assigned an id in order; and a candidate within 150 px of a retained track
with known position is matched to a retained matchable track at least as
close (in particular it gets no fresh id). -/
theorem assign_track_ids_spec (active : List (ℕ × ℤ)) (hist : ℕ → List Pos) (nextId : ℕ)
    (objects : List DObj) (n : ℤ)
    (hkeys : (active.map Prod.fst).Nodup)
    (hids : ∀ p ∈ active, p.1 < nextId)
    (hhist : ∀ id, nextId ≤ id → hist id = []) :
    (∀ p ∈ active, 30 < n - p.2 →
      ∀ v, (p.1, v) ∉ (assign_track_ids active hist nextId objects n).1) ∧
    (∀ p ∈ active, n - p.2 ≤ 30 →
      ∃ v, (p.1, v) ∈ (assign_track_ids active hist nextId objects n).1) ∧
    (assign_track_ids active hist nextId objects n).2.2.map Prod.fst = objects ∧
    (∀ pr ∈ (assign_track_ids active hist nextId objects n).2.2,
      ∀ q ∈ active, n - q.2 ≤ 30 → hist q.1 ≠ [] →
      dist2 pr.1.center (last_pos (hist q.1)) < 22500 →
      ∃ r ∈ active, n - r.2 ≤ 30 ∧ hist r.1 ≠ [] ∧ pr.2 = r.1 ∧
        dist2 pr.1.center (last_pos (hist r.1))
          ≤ dist2 pr.1.center (last_pos (hist q.1))) := by
  unfold assign_track_ids
  have hmem_act1 : ∀ p : ℕ × ℤ,
      p ∈ active.filter (fun p => ¬(30 < n - p.2)) ↔ p ∈ active ∧ n - p.2 ≤ 30 := by
    intro p
    rw [List.mem_filter]
    simp [not_lt]
  have init1 : ∀ p ∈ active.filter (fun p => ¬(30 < n - p.2)),
      ∃ v, (p.1, v) ∈ active.filter (fun p => ¬(30 < n - p.2)) := by
    intro p hp
    exact ⟨p.2, by rwa [Prod.mk.eta]⟩
  have init2 : ∀ kv ∈ active.filter (fun p => ¬(30 < n - p.2)),
      (∃ v, (kv.1, v) ∈ active.filter (fun p => ¬(30 < n - p.2))) ∨ nextId ≤ kv.1 := by
    intro kv hkv
    exact Or.inl ⟨kv.2, by rwa [Prod.mk.eta]⟩
  obtain ⟨f1, f2, f3, f4⟩ := assign_loop_facts hist n
    (active.filter (fun p => ¬(30 < n - p.2))) nextId hhist objects
    (active.filter (fun p => ¬(30 < n - p.2)), nextId, []) init1 init2 (le_refl _)
    (by intro pr hpr; exact absurd hpr (List.not_mem_nil _))
  refine ⟨?_, ?_, by simpa using f3, ?_⟩
  · intro p hp hstale v hv
    rcases f2 (p.1, v) hv with ⟨v', hv'⟩ | hge
    · have hmem := (hmem_act1 (p.1, v')).mp hv'
      have heqv : v' = p.2 :=
        keys_nodup_val_eq hkeys hmem.1 (by rwa [Prod.mk.eta])
      have hfresh : n - v' ≤ 30 := hmem.2
      omega
    · have := hids p hp
      omega
  · intro p hp hfresh
    exact f1 p ((hmem_act1 p).mpr ⟨hp, hfresh⟩)
  · intro pr hpr q hq hqfresh hqne hqclose
    obtain ⟨r, hr, hrne, hr2, hrle⟩ := f4 pr hpr q ((hmem_act1 q).mpr ⟨hq, hqfresh⟩) hqne hqclose
    have hr' := (hmem_act1 r).mp hr
    exact ⟨r, hr'.1, hr'.2, hrne, hr2, hrle⟩

/-- Witness for C5: one active track seen at frame 0, matched at frame 10 by
a candidate at its exact last position; a second stale track seen 31 frames
ago is evicted. -/
theorem assign_track_ids_spec_witness :
    (∀ v, ((1 : ℕ), v) ∉ (assign_track_ids [(0, 0), (1, -21)]
      (fun i => if i = 0 then [(0, 0)] else []) 2 [⟨(0, 0)⟩] 10).1) ∧
    (∃ v, ((0 : ℕ), v) ∈ (assign_track_ids [(0, 0), (1, -21)]
      (fun i => if i = 0 then [(0, 0)] else []) 2 [⟨(0, 0)⟩] 10).1) := by
  have h := assign_track_ids_spec [(0, 0), (1, -21)]
    (fun i => if i = 0 then [(0, 0)] else []) 2 [⟨(0, 0)⟩] 10
    (by simp)
    (by
      intro p hp
      simp only [List.mem_cons, List.not_mem_nil, or_false] at hp
      rcases hp with hp | hp <;> subst hp <;> norm_num)
    (by
      intro id hid
      show (if id = 0 then [((0 : ℚ), (0 : ℚ))] else []) = []
      rw [if_neg (by omega)])
  exact ⟨h.1 (1, -21) (by simp) (by norm_num), h.2.1 (0, 0) (by simp) (by norm_num)⟩

end DepthSpeedTracker

/-! ## Camera calibration helper lemmas -/

/-- Inversion of a successful construction: the validation checks passed and
the result is the field assignment `mkCalib`. -/
theorem mkTransformer_ok {h t f W H sw pan : ℝ} {c : Calib}
    (hc : mkTransformer h t f W H sw pan = .ok c) :
    c = mkCalib h t f W H sw pan ∧ 0 < h ∧ (-45 ≤ t ∧ t ≤ 90) ∧ 0 < f ∧ 0 < sw ∧ W ≠ 0 := by
  unfold mkTransformer at hc
  split_ifs at hc with h1 h2 h3 h4 h5
  all_goals first
    | exact absurd hc (fun hx => Except.noConfusion hx)
    | · injection hc with hceq
        exact ⟨hceq.symm, not_le.mp h1, h2, not_le.mp h3, not_le.mp h4, h5⟩

/-- The derived vertical field of view of a valid calibration is positive. -/
theorem fovVertical_pos {h t f W H sw pan : ℝ} (hf : 0 < f) (hsw : 0 < sw)
    (hW : 0 < W) (hH : 0 < H) : 0 < (mkCalib h t f W H sw pan).fovVertical := by
  show 0 < 2 * Real.arctan (sw * (H / W) / (2 * f))
  have harg : 0 < sw * (H / W) / (2 * f) := by positivity
  have harctan : 0 < Real.arctan (sw * (H / W) / (2 * f)) := by
    rw [← Real.arctan_zero]
    exact Real.arctan_strictMono harg
  linarith

/-- A pixel row lies strictly below the horizon row exactly when its viewing
ray points below the horizontal (`ray_elevation < 0`).  Image rows grow
downwards, so "below the horizon" is `horizon_y < py`. -/
theorem below_horizon_iff (c : Calib) (hF : 0 < c.fovVertical) (hH : 0 < c.imageHeight)
    (py : ℝ) : horizonVal c < py ↔ rayElevation c py < 0 := by
  have hA2 : 0 < c.imageHeight / 2 := by linarith
  have hF2 : 0 < c.fovVertical / 2 := by linarith
  unfold horizonVal rayElevation
  constructor
  · intro hlt
    have h1 : -c.tiltRad / (c.fovVertical / 2) * (c.imageHeight / 2)
        < py - c.imageHeight / 2 := by linarith
    have h2 : -c.tiltRad / (c.fovVertical / 2)
        < (py - c.imageHeight / 2) / (c.imageHeight / 2) := by
      rw [lt_div_iff₀ hA2]
      exact h1
    have h3 : -c.tiltRad
        < (py - c.imageHeight / 2) / (c.imageHeight / 2) * (c.fovVertical / 2) :=
      (div_lt_iff₀ hF2).mp h2
    linarith
  · intro hlt
    have h3 : -c.tiltRad
        < (py - c.imageHeight / 2) / (c.imageHeight / 2) * (c.fovVertical / 2) := by
      linarith
    have h2 : -c.tiltRad / (c.fovVertical / 2)
        < (py - c.imageHeight / 2) / (c.imageHeight / 2) := (div_lt_iff₀ hF2).mpr h3
    have h1 : -c.tiltRad / (c.fovVertical / 2) * (c.imageHeight / 2)
        < py - c.imageHeight / 2 := (lt_div_iff₀ hA2).mp h2
    linarith

/-! ## C6 — horizon row: monotone in tilt, independent of camera height -/

/-- C6: among valid calibrations differing only in `tilt_angle`, a larger
tilt gives a strictly smaller horizon row; among valid calibrations
differing only in `camera_height`, the horizon row is identical. -/
theorem horizon_tilt_mono_height_indep (h1 h2 t1 t2 f W H sw pan : ℝ)
    (hh1 : 0 < h1) (hh2 : 0 < h2)
    (ht1 : -45 ≤ t1 ∧ t1 ≤ 90) (ht2 : -45 ≤ t2 ∧ t2 ≤ 90)
    (hf : 0 < f) (hsw : 0 < sw) (hW : 0 < W) (hH : 0 < H) :
    (t1 < t2 → horizonVal (mkCalib h1 t2 f W H sw pan)
      < horizonVal (mkCalib h1 t1 f W H sw pan)) ∧
    horizonVal (mkCalib h1 t1 f W H sw pan) = horizonVal (mkCalib h2 t1 f W H sw pan) := by
  constructor
  · intro hlt
    have hfov : 0 < (mkCalib h1 t1 f W H sw pan).fovVertical :=
      fovVertical_pos hf hsw hW hH
    have hπ := Real.pi_pos
    show -(deg2rad t2) / ((mkCalib h1 t2 f W H sw pan).fovVertical / 2) * (H / 2) + H / 2
      < -(deg2rad t1) / ((mkCalib h1 t1 f W H sw pan).fovVertical / 2) * (H / 2) + H / 2
    have hsame : (mkCalib h1 t2 f W H sw pan).fovVertical
        = (mkCalib h1 t1 f W H sw pan).fovVertical := rfl
    rw [hsame]
    apply add_lt_add_right
    apply mul_lt_mul_of_pos_right _ (by linarith : (0:ℝ) < H / 2)
    rw [div_lt_div_iff_of_pos_right (by linarith : 0 < (mkCalib h1 t1 f W H sw pan).fovVertical / 2)]
    unfold deg2rad
    nlinarith
  · rfl

/-- Witness for C6: tilt 10° has a lower horizon row than tilt 0°, and
doubling the camera height leaves the horizon row unchanged. -/
theorem horizon_tilt_mono_height_indep_witness :
    horizonVal (mkCalib 1 10 18 1000 1000 36 0) < horizonVal (mkCalib 1 0 18 1000 1000 36 0) ∧
    horizonVal (mkCalib 1 0 18 1000 1000 36 0) = horizonVal (mkCalib 2 0 18 1000 1000 36 0) := by
  have h := horizon_tilt_mono_height_indep 1 2 0 10 18 1000 1000 36 0
    (by norm_num) (by norm_num) (by norm_num) (by norm_num)
    (by norm_num) (by norm_num) (by norm_num) (by norm_num)
  exact ⟨h.1 (by norm_num), h.2⟩

/-! ## C9 — calibration flag and unreachable RuntimeError branches -/

/-- Any transformer error raised by `transform_point` on a calibrated
instance is the above-horizon `ValueError`. -/
theorem transform_point_error_above (c : Calib) (hcal : c.isCalibrated = true)
    (p : ℝ × ℝ) (e : TErr) (he : transform_point c p = .error e) : e = .aboveHorizon := by
  unfold transform_point at he
  rw [if_neg (by rw [hcal]; simp)] at he
  by_cases hr : 0 ≤ rayElevation c p.2
  · rw [if_pos hr] at he
    injection he with he'
    exact he'.symm
  · rw [if_neg hr] at he
    exact absurd he (fun hx => Except.noConfusion hx)

/-- C9: a successfully constructed transformer has `is_calibrated = True`
(and no method ever resets it), so the "must be calibrated" `RuntimeError`
branches of `transform_point`, `transform_points`, `calculate_distance` and
`get_horizon_line` are unreachable on it. -/
theorem constructed_transformer_calibrated (h t f W H sw pan : ℝ) (c : Calib)
    (hc : mkTransformer h t f W H sw pan = .ok c) :
    c.isCalibrated = true ∧
    (∀ p, transform_point c p ≠ .error .notCalibrated) ∧
    (∀ ps, transform_points c ps ≠ .error .notCalibrated) ∧
    (∀ p q, calculate_distance c p q ≠ .error .notCalibrated) ∧
    get_horizon_line c = .ok (horizonVal c) := by
  obtain ⟨hceq, -⟩ := mkTransformer_ok hc
  have hcal : c.isCalibrated = true := by rw [hceq]; rfl
  have hpoint : ∀ p, transform_point c p ≠ .error .notCalibrated := by
    intro p hcontra
    have := transform_point_error_above c hcal p _ hcontra
    exact TErr.noConfusion this
  have hlist : ∀ ps, transform_points_list c ps ≠ .error .notCalibrated := by
    intro ps
    induction ps with
    | nil => exact fun hx => Except.noConfusion hx
    | cons p rest ih =>
      unfold transform_points_list
      cases hp : transform_point c p with
      | error e =>
        have he := transform_point_error_above c hcal p e hp
        subst he
        intro hx
        injection hx with hx'
        exact TErr.noConfusion hx'
      | ok q =>
        cases hrest : transform_points_list c rest with
        | error e =>
          intro hx
          injection hx with hx'
          subst hx'
          exact ih hrest
        | ok qs => exact fun hx => Except.noConfusion hx
  refine ⟨hcal, hpoint, ?_, ?_, ?_⟩
  · intro ps
    unfold transform_points
    rw [if_neg (by rw [hcal]; simp)]
    exact hlist ps
  · intro p q
    unfold calculate_distance
    rw [if_neg (by rw [hcal]; simp)]
    cases hp : transform_point c p with
    | error e =>
      have he := transform_point_error_above c hcal p e hp
      subst he
      intro hx
      injection hx with hx'
      exact TErr.noConfusion hx'
    | ok q1 =>
      cases hq : transform_point c q with
      | error e =>
        have he := transform_point_error_above c hcal q e hq
        subst he
        intro hx
        injection hx with hx'
        exact TErr.noConfusion hx'
      | ok q2 => exact fun hx => Except.noConfusion hx
  · unfold get_horizon_line
    rw [if_neg (by rw [hcal]; simp)]

/-! ## C1 — projection below the horizon -/

/-- C1 (amended): for a successfully constructed transformer with positive
image dimensions, a pixel strictly below the horizon row whose ray elevation
exceeds −90° projects successfully to a point with `y_meters > 0`; a pixel
at or above the horizon row always fails with the above-horizon error.
(The −90° proviso is needed: with large tilt a ray can point below the
horizon yet beyond straight down, where `tan` turns negative.) -/
theorem transform_point_horizon (h t f W H sw pan : ℝ) (c : Calib)
    (hc : mkTransformer h t f W H sw pan = .ok c) (hW : 0 < W) (hH : 0 < H) (px py : ℝ) :
    (horizonVal c < py → -(Real.pi / 2) < rayElevation c py →
      ∃ xm ym, transform_point c (px, py) = .ok (xm, ym) ∧ 0 < ym) ∧
    (py ≤ horizonVal c → transform_point c (px, py) = .error .aboveHorizon) := by
  obtain ⟨hceq, hh, -, hf, hsw, -⟩ := mkTransformer_ok hc
  have hcal : c.isCalibrated = true := by rw [hceq]; rfl
  have hfov : 0 < c.fovVertical := by rw [hceq]; exact fovVertical_pos hf hsw hW hH
  have hHc : 0 < c.imageHeight := by rw [hceq]; exact hH
  constructor
  · intro hbelow hray2
    have hraylt : rayElevation c py < 0 := (below_horizon_iff c hfov hHc py).mp hbelow
    unfold transform_point
    rw [if_neg (by rw [hcal]; simp)]
    rw [if_neg (not_le.mpr hraylt)]
    refine ⟨_, _, rfl, ?_⟩
    show 0 < c.cameraHeight / Real.tan |rayElevation c py|
    have h1 : 0 < -(rayElevation c py) := by linarith
    have h2 : -(rayElevation c py) < Real.pi / 2 := by linarith
    have htan : 0 < Real.tan |rayElevation c py| := by
      rw [abs_of_neg hraylt]
      exact Real.tan_pos_of_pos_of_lt_pi_div_two h1 h2
    have hch : 0 < c.cameraHeight := by rw [hceq]; exact hh
    exact div_pos hch htan
  · intro habove
    have hray : 0 ≤ rayElevation c py := by
      by_contra hr
      push_neg at hr
      exact absurd ((below_horizon_iff c hfov hHc py).mpr hr) (not_lt.mpr habove)
    unfold transform_point
    rw [if_neg (by rw [hcal]; simp)]
    rw [if_pos hray]

/-- Witness for C1 (amended): a pixel at the bottom centre of a
1920×1080 frame with 10° downward tilt projects to a strictly positive
forward ground distance. -/
theorem transform_point_horizon_witness :
    ∃ xm ym, transform_point (mkCalib 1.4 10 26 1920 1080 36 0) (960, 1080)
      = .ok (xm, ym) ∧ 0 < ym := by
  have hc : mkTransformer 1.4 10 26 1920 1080 36 0
      = .ok (mkCalib 1.4 10 26 1920 1080 36 0) := by
    unfold mkTransformer
    rw [if_neg (by norm_num), if_neg (by norm_num), if_neg (by norm_num),
      if_neg (by norm_num), if_neg (by norm_num)]
  have hπ := Real.pi_pos
  have hT : (mkCalib 1.4 10 26 1920 1080 36 0).tiltRad = 10 * Real.pi / 180 := rfl
  have hH2 : (mkCalib 1.4 10 26 1920 1080 36 0).imageHeight = 1080 := rfl
  have hV : (mkCalib 1.4 10 26 1920 1080 36 0).fovVertical
      = 2 * Real.arctan (36 * ((1080 : ℝ) / 1920) / (2 * 26)) := rfl
  have harctanpos : 0 < Real.arctan (36 * ((1080 : ℝ) / 1920) / (2 * 26)) := by
    rw [← Real.arctan_zero]
    apply Real.arctan_strictMono
    norm_num
  have harctanlt : Real.arctan (36 * ((1080 : ℝ) / 1920) / (2 * 26)) < Real.pi / 4 := by
    rw [← Real.arctan_one]
    apply Real.arctan_strictMono
    norm_num
  have hray : rayElevation (mkCalib 1.4 10 26 1920 1080 36 0) 1080
      = -(Real.arctan (36 * ((1080 : ℝ) / 1920) / (2 * 26))) - 10 * Real.pi / 180 := by
    unfold rayElevation
    rw [hT, hH2, hV]
    have : ((1080 : ℝ) - 1080 / 2) / (1080 / 2) = 1 := by norm_num
    rw [this]
    ring
  have hhor : horizonVal (mkCalib 1.4 10 26 1920 1080 36 0) < 1080 := by
    unfold horizonVal
    rw [hT, hH2, hV]
    have hA : 0 < 2 * Real.arctan (36 * ((1080 : ℝ) / 1920) / (2 * 26)) / 2 := by linarith
    have hneg : -(10 * Real.pi / 180)
        / (2 * Real.arctan (36 * ((1080 : ℝ) / 1920) / (2 * 26)) / 2) < 0 :=
      div_neg_of_neg_of_pos (by linarith) hA
    nlinarith
  have hr2 : -(Real.pi / 2) < rayElevation (mkCalib 1.4 10 26 1920 1080 36 0) 1080 := by
    rw [hray]
    linarith
  exact (transform_point_horizon 1.4 10 26 1920 1080 36 0 _ hc (by norm_num) (by norm_num)
    960 1080).1 hhor hr2

/-- Counterexample to C1 as stated: with tilt 90° (valid per the
constructor) and a square 1000×1000 image with 90° vertical field of view,
the bottom-centre pixel `(500, 1000)` lies strictly below the horizon row
(−500), `transform_point` succeeds — yet returns `y_meters = −1 < 0`,
because the ray elevation is −135°, past straight down. -/
theorem transform_point_below_horizon_counterexample :
    mkTransformer 1 90 18 1000 1000 36 0 = .ok (mkCalib 1 90 18 1000 1000 36 0) ∧
    horizonVal (mkCalib 1 90 18 1000 1000 36 0) = -500 ∧
    transform_point (mkCalib 1 90 18 1000 1000 36 0) (500, 1000) = .ok (0, -1) ∧
    ¬(0 < (-1 : ℝ)) := by
  have hπ := Real.pi_pos
  have hc : mkTransformer 1 90 18 1000 1000 36 0 = .ok (mkCalib 1 90 18 1000 1000 36 0) := by
    unfold mkTransformer
    rw [if_neg (by norm_num), if_neg (by norm_num), if_neg (by norm_num),
      if_neg (by norm_num), if_neg (by norm_num)]
  have hT : (mkCalib 1 90 18 1000 1000 36 0).tiltRad = 90 * Real.pi / 180 := rfl
  have hH2 : (mkCalib 1 90 18 1000 1000 36 0).imageHeight = 1000 := rfl
  have hV : (mkCalib 1 90 18 1000 1000 36 0).fovVertical
      = 2 * Real.arctan (36 * ((1000 : ℝ) / 1000) / (2 * 18)) := rfl
  have harg : (36 : ℝ) * ((1000 : ℝ) / 1000) / (2 * 18) = 1 := by norm_num
  have hVpi : (mkCalib 1 90 18 1000 1000 36 0).fovVertical = Real.pi / 2 := by
    rw [hV, harg, Real.arctan_one]
    ring
  have hhor : horizonVal (mkCalib 1 90 18 1000 1000 36 0) = -500 := by
    unfold horizonVal
    rw [hT, hH2, hVpi]
    have hp : (90 : ℝ) * Real.pi / 180 = Real.pi / 2 := by ring
    rw [hp]
    field_simp
    ring
  have hray : rayElevation (mkCalib 1 90 18 1000 1000 36 0) 1000 = -(3 * Real.pi / 4) := by
    unfold rayElevation
    rw [hT, hH2, hVpi]
    have : ((1000 : ℝ) - 1000 / 2) / (1000 / 2) = 1 := by norm_num
    rw [this]
    ring
  have htan : Real.tan |rayElevation (mkCalib 1 90 18 1000 1000 36 0) 1000| = -1 := by
    rw [hray, abs_of_neg (by linarith : -(3 * Real.pi / 4) < (0:ℝ)), neg_neg]
    rw [show (3 : ℝ) * Real.pi / 4 = -(Real.pi / 4) + Real.pi by ring]
    rw [Real.tan_add_pi, Real.tan_neg, Real.tan_pi_div_four]
  refine ⟨hc, hhor, ?_, by norm_num⟩
  unfold transform_point
  rw [if_neg (by simp [show (mkCalib 1 90 18 1000 1000 36 0).isCalibrated = true from rfl])]
  rw [if_neg (by rw [hray]; intro hcontra; nlinarith)]
  have hground : (mkCalib 1 90 18 1000 1000 36 0).cameraHeight
      / Real.tan |rayElevation (mkCalib 1 90 18 1000 1000 36 0) 1000| = -1 := by
    rw [htan, show (mkCalib 1 90 18 1000 1000 36 0).cameraHeight = 1 from rfl]
    norm_num
  have halpha : ((500 : ℝ) - (mkCalib 1 90 18 1000 1000 36 0).imageWidth / 2)
      / ((mkCalib 1 90 18 1000 1000 36 0).imageWidth / 2)
      * ((mkCalib 1 90 18 1000 1000 36 0).fovHorizontal / 2)
      + (mkCalib 1 90 18 1000 1000 36 0).panRad = 0 := by
    rw [show (mkCalib 1 90 18 1000 1000 36 0).imageWidth = 1000 from rfl]
    rw [show (mkCalib 1 90 18 1000 1000 36 0).panRad = 0 * Real.pi / 180 from rfl]
    norm_num
  show Except.ok (_ , _) = Except.ok ((0 : ℝ), (-1 : ℝ))
  rw [hground]
  rw [halpha, Real.tan_zero]
  norm_num

/-- Witness for C9 at a concrete valid construction. -/
theorem constructed_transformer_calibrated_witness :
    (mkCalib 1.4 (-14) 26 1920 1080 36 0).isCalibrated = true ∧
    (∀ p, transform_point (mkCalib 1.4 (-14) 26 1920 1080 36 0) p
      ≠ .error .notCalibrated) ∧
    (∀ ps, transform_points (mkCalib 1.4 (-14) 26 1920 1080 36 0) ps
      ≠ .error .notCalibrated) ∧
    (∀ p q, calculate_distance (mkCalib 1.4 (-14) 26 1920 1080 36 0) p q
      ≠ .error .notCalibrated) ∧
    get_horizon_line (mkCalib 1.4 (-14) 26 1920 1080 36 0)
      = .ok (horizonVal (mkCalib 1.4 (-14) 26 1920 1080 36 0)) := by
  apply constructed_transformer_calibrated 1.4 (-14) 26 1920 1080 36 0
  unfold mkTransformer
  rw [if_neg (by norm_num), if_neg (by norm_num), if_neg (by norm_num),
    if_neg (by norm_num), if_neg (by norm_num)]

end SpeedDetection
